import Mathlib

/-!
Shallow embedding of the notebook→MDX conversion scripts of this repository:
`.github/workflows/scripts/notebook_to_mdx.py` (namespace `notebook_to_mdx`)
and `.github/workflows/scripts/convert_notebook_to_mdx.py`
(namespace `convert_mdx`).  Python strings are modelled as Lean `String`
(lists of characters), Python dicts as association lists in insertion order,
and the filesystem side effects of the image relocator as explicit values
(an existence predicate for reads, a returned list of writes).

Text scanners (models of the `re` substitutions and searches used by the
scripts) are written with an explicit fuel argument, always called with the
input length as fuel, so that every definition reduces in the kernel.
-/

namespace NbMdx

/-- Python whitespace: the characters stripped by `str.strip()` and matched
by the regex class `\s` on the ASCII inputs handled by these scripts. -/
def isPySpace (c : Char) : Bool :=
  c = ' ' || c = '\t' || c = '\n' || c = '\r' || c = '\x0b' || c = '\x0c'

/-- Python `str.strip()` on a character list. -/
def pyStripL (l : List Char) : List Char :=
  ((l.dropWhile isPySpace).reverse.dropWhile isPySpace).reverse

/-- Python `str.strip()`. -/
def pyStrip (s : String) : String := ⟨pyStripL s.data⟩

/-- Python `str.rstrip()`. -/
def pyRStrip (s : String) : String := ⟨(s.data.reverse.dropWhile isPySpace).reverse⟩

/-- Python truthiness of `text.strip()` (`if text.strip():`). -/
def pyTruthy (s : String) : Bool := !(pyStripL s.data).isEmpty

/-- Python `str.lower()` for the ASCII strings these scripts handle. -/
def pyLowerChar (c : Char) : Char :=
  if 'A' ≤ c && c ≤ 'Z' then Char.ofNat (c.toNat + 32) else c

/-- Python `str.lower()`. -/
def pyLower (s : String) : String := ⟨s.data.map pyLowerChar⟩

/-- Fuelled worker for `str.replace`: left-to-right, non-overlapping
replacement of every occurrence of `old` (when `old` is nonempty). -/
def replaceFuel (old new : List Char) : Nat → List Char → List Char
  | 0, l => l
  | _ + 1, [] => []
  | fuel + 1, c :: rest =>
    if !old.isEmpty && old.isPrefixOf (c :: rest) then
      new ++ replaceFuel old new fuel ((c :: rest).drop old.length)
    else
      c :: replaceFuel old new fuel rest

/-- Python `str.replace(old, new)` on character lists. -/
def replaceL (old new l : List Char) : List Char := replaceFuel old new l.length l

/-- Python `s.replace(old, new)`. -/
def pyReplace (s old new : String) : String := ⟨replaceL old.data new.data s.data⟩

/-- Python `"\n".join(parts)`. -/
def joinNl : List String → String
  | [] => ""
  | [s] => s
  | s :: rest => s ++ "\n" ++ joinNl rest

/-- Membership of `needle` as a contiguous substring (Python's `in`). -/
def containsL (needle : List Char) : List Char → Bool
  | [] => needle.isEmpty
  | c :: rest => needle.isPrefixOf (c :: rest) || containsL needle rest

/-- Python `needle in hay` for strings. -/
def pyContains (hay needle : String) : Bool := containsL needle.data hay.data

/-- Python `s.split("\n")` on character lists: split at every newline,
keeping empty pieces. -/
def splitNlChars : List Char → List (List Char)
  | [] => [[]]
  | c :: rest =>
    if c = '\n' then [] :: splitNlChars rest
    else
      match splitNlChars rest with
      | [] => [[c]]
      | x :: xs => (c :: x) :: xs

/-- Python `s.split("\n")`. -/
def splitNl (s : String) : List String := (splitNlChars s.data).map (⟨·⟩)

/-- Python `s.startswith(p)`. -/
def pyStartsWith (s p : String) : Bool := p.data.isPrefixOf s.data

/-- In the whole-tail-whitespace case of `tailMatch`, the greedy `\s+`
backtracks to the largest index `i ≥ 1` holding a non-newline character. -/
def lastBacktrack (t : List Char) : Option Nat :=
  (List.range t.length).reverse.find? (fun i => i != 0 && t.getD i '\n' != '\n')

/-- Model of matching `\s+(.+)$` (flag `re.MULTILINE`) against the text `t`
that follows a `#`: `\s+` greedily takes the maximal whitespace run; if a
character follows the run (it cannot be a newline), group 1 is the rest of
that line; if the run swallows all of `t`, the engine backtracks to the last
position `≥ 1` holding a non-newline (whitespace) character, and group 1
runs from there to the next newline.  Returns group 1 of the match, `none`
when the pattern does not match. -/
def tailMatch (t : List Char) : Option (List Char) :=
  let j := (t.takeWhile isPySpace).length
  if j = 0 then none
  else if j < t.length then some ((t.drop j).takeWhile (fun c => c ≠ '\n'))
  else
    match lastBacktrack t with
    | some i => some ((t.drop i).takeWhile (fun c => c ≠ '\n'))
    | none => none

/-- Model of `re.search(r"^#\s+(.+)$", source, re.MULTILINE)`
(`notebook_to_mdx.py` line 25): the pattern is tried at each line start in
order; a match needs a `#` there followed by a `tailMatch` of the rest of
the text.  Returns group 1 of the first match. -/
def searchH1Fuel : Nat → List Char → Option (List Char)
  | 0, _ => none
  | _ + 1, [] => none
  | fuel + 1, c :: rest =>
    match (if c = '#' then tailMatch rest else none) with
    | some g => some g
    | none => searchH1Fuel fuel (((c :: rest).dropWhile (fun d => d ≠ '\n')).tail)

/-- `re.search(r"^#\s+(.+)$", source, re.MULTILINE)`, group 1. -/
def searchH1 (s : String) : Option String :=
  (searchH1Fuel (s.data.length + 1) s.data).map (⟨·⟩)

/-- Model of `re.match(r"^#\s+(.+)$", source, re.MULTILINE)`
(`convert_notebook_to_mdx.py` line 185): anchored at position 0, so the
source must begin with `#` followed by a `tailMatch`. -/
def matchH1 (s : String) : Option String :=
  match s.data with
  | c :: rest => if c = '#' then (tailMatch rest).map (⟨·⟩) else none
  | [] => none

/-- `"\n".join` on character-list lines. -/
def joinNlChars : List (List Char) → List Char
  | [] => []
  | [l] => l
  | l :: rest => l ++ '\n' :: joinNlChars rest

/-- Python `"".join(parts)`. -/
def joinAll : List String → String
  | [] => ""
  | s :: rest => s ++ joinAll rest

/-- `Path.name`: the final path component. -/
def basename (p : String) : String :=
  ⟨(p.data.reverse.takeWhile (fun c => c ≠ '/')).reverse⟩

/-- `Path.parent` of a relative path: everything before the final `/`, or
`"."` when there is none. -/
def dirname (p : String) : String :=
  if '/' ∈ p.data then ⟨((p.data.reverse.dropWhile (fun c => c ≠ '/')).drop 1).reverse⟩
  else "."

/-- `Path.stem`: the final component without its extension (a leading dot
alone does not count as an extension separator, as in `pathlib`). -/
def stemOf (p : String) : String :=
  let b := (basename p).data
  let pre := (b.reverse.dropWhile (fun c => c ≠ '.')).drop 1
  if pre.isEmpty then ⟨b⟩ else ⟨pre.reverse⟩

/-- `Path` division `d / f` for a relative `f` (`Path(".")` disappears). -/
def pathJoin (d f : String) : String :=
  if d = "." || d = "" then f else d ++ "/" ++ f

/-- A filesystem write performed by the image relocator: either a `copy2`
of an existing file or the write of decoded base64 attachment bytes (the
payload is carried in its undecoded base64 form). -/
inductive Write where
  | copy (src dst : String)
  | writeBytes (dst : String) (b64 : String)
deriving DecidableEq, Repr

/-- The HTML void elements self-closed by both scripts
(`notebook_to_mdx.py` lines 84–98, `convert_notebook_to_mdx.py` line 32). -/
def void_elements : List String :=
  ["img", "br", "hr", "input", "meta", "link", "area", "base", "col",
   "embed", "source", "track", "wbr"]

/-- One attempted match of `<(elem)\s*([^>]*?)(?<!/)\s*>` (IGNORECASE) at
the head of `s`: the tag name is matched case-insensitively, the closing
`>` is necessarily the first `>` after the name (the lazy group cannot
cross it), and the match succeeds when some split point `m` between the
greedy leading whitespace run and the `>` leaves only whitespace before the
`>` with a non-`/` character just before the split (the lazy group makes
`m` minimal).  Returns (original-case name, group 2, text after `>`). -/
def matchVoid (ename : List Char) (s : List Char) :
    Option (List Char × List Char × List Char) :=
  match s with
  | '<' :: t =>
    if ((t.take ename.length).map pyLowerChar) = ename then
      let orig := t.take ename.length
      let rest := t.drop ename.length
      let beforeGt := rest.takeWhile (fun c => c ≠ '>')
      if beforeGt.length = rest.length then none
      else
        let q := beforeGt.length
        let w := (rest.takeWhile isPySpace).length
        match (List.range (q + 1)).find? (fun m =>
            decide (w ≤ m) &&
            ((rest.drop m).take (q - m)).all isPySpace &&
            (if m = 0 then true else rest.getD (m - 1) ' ' != '/')) with
        | some m => some (orig, (rest.drop w).take (m - w), rest.drop (q + 1))
        | none => none
    else none
  | _ => none

/-- The substitution pass for one void element: each match is replaced by
`<` name ` ` group2 ` />` and scanning resumes after the original `>`. -/
def subVoidFuel (ename : List Char) : Nat → List Char → List Char
  | 0, l => l
  | _ + 1, [] => []
  | fuel + 1, c :: rest =>
    match matchVoid ename (c :: rest) with
    | some (orig, g2, rem) =>
      ('<' :: orig ++ [' '] ++ g2 ++ [' ', '/', '>']) ++ subVoidFuel ename fuel rem
    | none => c :: subVoidFuel ename fuel rest

/-- One attempted match of the cleanup pattern `<(elem)\s+/>` (IGNORECASE)
at the head of `s`: name, at least one whitespace character, then `/>`. -/
def matchCleanup (ename : List Char) (s : List Char) :
    Option (List Char × List Char) :=
  match s with
  | '<' :: t =>
    if ((t.take ename.length).map pyLowerChar) = ename then
      let orig := t.take ename.length
      let rest := t.drop ename.length
      let w := (rest.takeWhile isPySpace).length
      if 0 < w then
        match rest.drop w with
        | '/' :: '>' :: rem => some (orig, rem)
        | _ => none
      else none
    else none
  | _ => none

/-- The cleanup pass for one void element: `<elem   />` becomes `<elem />`. -/
def subCleanupFuel (ename : List Char) : Nat → List Char → List Char
  | 0, l => l
  | _ + 1, [] => []
  | fuel + 1, c :: rest =>
    match matchCleanup ename (c :: rest) with
    | some (orig, rem) =>
      ('<' :: orig ++ [' ', '/', '>']) ++ subCleanupFuel ename fuel rem
    | none => c :: subCleanupFuel ename fuel rest

/-- Both regex substitutions for one void element, in source order. -/
def fix_void_step (l : List Char) (e : String) : List Char :=
  subCleanupFuel e.data (subVoidFuel e.data l.length l).length
    (subVoidFuel e.data l.length l)

/-- `fix_html_void_elements` / the void-element part of
`sanitize_markdown_for_mdx` (`convert_notebook_to_mdx.py` lines 25–44,
`notebook_to_mdx.py` lines 83–103): for each void element in order, rewrite
non-self-closed tags into self-closing form, then collapse the doubled
spaces the rewrite may introduce. -/
def fix_html_void_elements (s : String) : String :=
  ⟨void_elements.foldl fix_void_step s.data⟩

/-- `re.sub(r"\[([^\]]+)\]\([^)]+\)", r"\1", s)`: markdown links become
their link text.  Both character classes are greedy and cannot cross their
closing delimiter, so a match is `[`, a maximal non-`]` run (non-empty),
`](`, a maximal non-`)` run (non-empty), `)`; scanning is left to right and
non-overlapping. -/
def linkSubFuel : Nat → List Char → List Char
  | 0, l => l
  | _ + 1, [] => []
  | fuel + 1, c :: rest =>
    if c = '[' then
      let g := rest.takeWhile (fun x => x ≠ ']')
      if g.isEmpty then c :: linkSubFuel fuel rest
      else
        match rest.drop g.length with
        | ']' :: '(' :: r3 =>
          let u := r3.takeWhile (fun x => x ≠ ')')
          if u.isEmpty then c :: linkSubFuel fuel rest
          else
            match r3.drop u.length with
            | ')' :: r4 => g ++ linkSubFuel fuel r4
            | _ => c :: linkSubFuel fuel rest
        | _ => c :: linkSubFuel fuel rest
    else c :: linkSubFuel fuel rest

/-- `re.sub(r"\*\*([^*]+)\*\*", r"\1", s)`: bold markup dropped. -/
def boldSubFuel : Nat → List Char → List Char
  | 0, l => l
  | _ + 1, [] => []
  | fuel + 1, c :: rest =>
    if c = '*' then
      match rest with
      | '*' :: r2 =>
        let g := r2.takeWhile (fun x => x ≠ '*')
        if g.isEmpty then c :: boldSubFuel fuel rest
        else
          match r2.drop g.length with
          | '*' :: '*' :: r3 => g ++ boldSubFuel fuel r3
          | _ => c :: boldSubFuel fuel rest
      | _ => c :: boldSubFuel fuel rest
    else c :: boldSubFuel fuel rest

/-- `re.sub(r"D([^D]+)D", r"\1", s)` for a single-character delimiter `D`
(used with `*` for italic and with a backtick for inline code). -/
def delimSubFuel (delim : Char) : Nat → List Char → List Char
  | 0, l => l
  | _ + 1, [] => []
  | fuel + 1, c :: rest =>
    if c = delim then
      let g := rest.takeWhile (fun x => x ≠ delim)
      if g.isEmpty then c :: delimSubFuel delim fuel rest
      else
        match rest.drop g.length with
        | _ :: r2 => g ++ delimSubFuel delim fuel r2
        | [] => c :: delimSubFuel delim fuel rest
    else c :: delimSubFuel delim fuel rest

/-- Link substitution on a line. -/
def linkSub (l : List Char) : List Char := linkSubFuel l.length l

/-- Bold substitution on a line. -/
def boldSub (l : List Char) : List Char := boldSubFuel l.length l

/-- Italic substitution on a line. -/
def italicSub (l : List Char) : List Char := delimSubFuel '*' l.length l

/-- Inline-code substitution on a line. -/
def codeSub (l : List Char) : List Char := delimSubFuel '`' l.length l

/-- The four markdown-markup removals of `extract_description`
(`convert_notebook_to_mdx.py` lines 157–161), in source order: links, bold,
italic, inline code. -/
def clean_desc (l : List Char) : List Char :=
  codeSub (italicSub (boldSub (linkSub l)))

/-- Python truncation `desc[:157] + "..."` when `len(desc) > 160`. -/
def truncate160 (l : List Char) : List Char :=
  if l.length > 160 then l.take 157 ++ ['.', '.', '.'] else l

/-- A cell output, i.e. one entry of a code cell's `outputs` list, keyed by
its `output_type` field.  The `data` mapping of an `execute_result` /
`display_data` output is an association list mime-type ↦ payload (payloads
that the notebook format stores as lists of strings are modelled already
joined, matching the `"".join(...)` calls in the scripts). -/
inductive Output where
  | stream (text : String)
  | execute_result (data : List (String × String))
  | display_data (data : List (String × String))
  | error (ename : String) (traceback : List String)
  | other
deriving DecidableEq, Repr

/-- A notebook cell: `cell_type` plus joined `source`; markdown cells carry
their `attachments` mapping (name ↦ (mime-type ↦ base64 payload)),
code cells their `outputs`. -/
inductive Cell where
  | markdown (source : String) (attachments : List (String × List (String × String)))
  | code (source : String) (outputs : List Output)
  | other (source : String)
deriving DecidableEq, Repr

/-- The joined `source` of a cell (`"".join(cell.get("source", []))`). -/
def Cell.source : Cell → String
  | .markdown s _ => s
  | .code s _ => s
  | .other s => s

end NbMdx

namespace notebook_to_mdx

open NbMdx

/-- `notebook_to_mdx.py` line 342: the output document's file name,
`notebook_path.stem.replace("_", "-") + ".mdx"`. -/
def output_name (stem : String) : String := pyReplace stem "_" "-" ++ ".mdx"

/-- `notebook_to_mdx.py` line 272: the document slug used to prefix image
names, `notebook_path.stem.replace("_", "-").lower()`. -/
def notebook_slug (stem : String) : String := pyLower (pyReplace stem "_" "-")

/-- `notebook_to_mdx.py` lines 20–28, `extract_title_from_markdown`: return
the stripped group of `re.search(r"^#\s+(.+)$", source, re.MULTILINE)` for
the first markdown cell whose source matches; `"Untitled"` otherwise. -/
def extract_title_from_markdown : List Cell → String
  | [] => "Untitled"
  | .markdown source _ :: rest =>
    (match searchH1 source with
     | some g => pyStrip g
     | none => extract_title_from_markdown rest)
  | _ :: rest => extract_title_from_markdown rest

/-- `notebook_to_mdx.py` line 188: the relocated filename of a local image,
`f"{notebook_slug}-{source_image.name}"`. -/
def local_image_filename (slug name : String) : String := slug ++ "-" ++ name

/-- The resolution of a non-attachment image path against the notebook
(`notebook_to_mdx.py` lines 174–184 and 221–229): a leading `./` is
dropped; a leading `../` resolves one level above the notebook's
directory; anything else resolves against the notebook's directory. -/
def resolved_local_path (image_path notebook_path : String) : String :=
  let p1 := if pyStartsWith image_path "./" then (⟨image_path.data.drop 2⟩ : String)
    else image_path
  if pyStartsWith p1 "../" then
    pathJoin (dirname (dirname notebook_path)) ⟨p1.data.drop 3⟩
  else pathJoin (dirname notebook_path) p1

/-- The file extension derived from a mime type
(`notebook_to_mdx.py` lines 148–151): the part after the last `/`, with
`jpeg` normalized to `jpg`. -/
def ext_of_mime (mime : String) : String :=
  let e : String := ⟨(mime.data.reverse.takeWhile (fun c => c ≠ '/')).reverse⟩
  if e = "jpeg" then "jpg" else e

/-- The sanitized attachment name (`notebook_to_mdx.py` lines 154–156):
the part before the first dot, with every non-alphanumeric character
replaced by `-`. -/
def safe_attachment_name (name : String) : String :=
  ⟨(name.data.takeWhile (fun c => c ≠ '.')).map
    (fun c => if c.isAlphanum then c else '-')⟩

/-- `notebook_to_mdx.py` lines 133–203, the `replace_image` callback for
one markdown image match `![alt](path)`: branding (`header-logo`) paths
are dropped; `attachment:` paths are looked up in the cell's attachment
mapping and, when found with at least one mime entry, decoded and written
under `{slug}-{safe-name}.{ext}` (first mime entry wins); other paths are
resolved on disk and, when the file exists, copied to `{slug}-{name}`;
unresolved references are returned unchanged with no write. -/
def replace_image (alt image_path : String)
    (attachments : List (String × List (String × String)))
    (notebook_path images_dir notebook_slug : String)
    (fs_exists : String → Bool) : String × List Write :=
  if pyContains image_path "header-logo" then ("", [])
  else if pyStartsWith image_path "attachment:" then
    let attachment_name := pyReplace image_path "attachment:" ""
    match attachments.lookup attachment_name with
    | some ((mime_type, base64_data) :: _) =>
      let new_filename :=
        notebook_slug ++ "-" ++ safe_attachment_name attachment_name ++ "." ++
          ext_of_mime mime_type
      ("![" ++ alt ++ "](/tutorials/example-notebooks/images/" ++ new_filename ++ ")",
        [Write.writeBytes (images_dir ++ "/" ++ new_filename) base64_data])
    | _ => ("![" ++ alt ++ "](" ++ image_path ++ ")", [])
  else
    let source_image := resolved_local_path image_path notebook_path
    if fs_exists source_image then
      let new_filename := local_image_filename notebook_slug (basename source_image)
      ("![" ++ alt ++ "](/tutorials/example-notebooks/images/" ++ new_filename ++ ")",
        [Write.copy source_image (images_dir ++ "/" ++ new_filename)])
    else ("![" ++ alt ++ "](" ++ image_path ++ ")", [])

/-- `re.search(r'ATTR=["\']([^"\']+)["\']', tag)` for `src=` (non-empty
body) and `alt=` (`allowEmpty`, i.e. `*`): finds the leftmost attribute,
whose value runs to the first quote of either kind. -/
def attrSearchFuel (attr : List Char) (allowEmpty : Bool) :
    Nat → List Char → Option (List Char)
  | 0, _ => none
  | _ + 1, [] => none
  | fuel + 1, c :: rest =>
    if attr.isPrefixOf (c :: rest) then
      match (c :: rest).drop attr.length with
      | q :: t2 =>
        if q = '"' || q = '\'' then
          let body := t2.takeWhile (fun x => x ≠ '"' && x ≠ '\'')
          if body.isEmpty && !allowEmpty then attrSearchFuel attr allowEmpty fuel rest
          else
            match t2.drop body.length with
            | _ :: _ => some body
            | [] => attrSearchFuel attr allowEmpty fuel rest
        else attrSearchFuel attr allowEmpty fuel rest
      | [] => attrSearchFuel attr allowEmpty fuel rest
    else attrSearchFuel attr allowEmpty fuel rest

/-- `notebook_to_mdx.py` lines 209–247, the `replace_html_img` callback for
one `<img ...>` tag: no `src` attribute leaves the tag unchanged; a
branding path drops it; an existing resolved file is copied and the tag is
rewritten to markdown image syntax with the tag's `alt` text (default
empty); a missing file leaves the tag unchanged. -/
def replace_html_img (full_tag : String)
    (notebook_path images_dir notebook_slug : String)
    (fs_exists : String → Bool) : String × List Write :=
  match attrSearchFuel "src=".data false full_tag.data.length full_tag.data with
  | none => (full_tag, [])
  | some src =>
    let image_path : String := ⟨src⟩
    if pyContains image_path "header-logo" then ("", [])
    else
      let source_image := resolved_local_path image_path notebook_path
      if fs_exists source_image then
        let new_filename := local_image_filename notebook_slug (basename source_image)
        let alt_text : String :=
          match attrSearchFuel "alt=".data true full_tag.data.length full_tag.data with
          | some a => ⟨a⟩
          | none => ""
        ("![" ++ alt_text ++ "](/tutorials/example-notebooks/images/" ++
            new_filename ++ ")",
          [Write.copy source_image (images_dir ++ "/" ++ new_filename)])
      else (full_tag, [])

/-- The substitution `re.sub(r"!\[([^\]]*)\]\(([^)]+)\)", replace_image, source)`
(`notebook_to_mdx.py` line 206). -/
def subMdImagesFuel (attachments : List (String × List (String × String)))
    (notebook_path images_dir notebook_slug : String) (fs_exists : String → Bool) :
    Nat → List Char → List Char × List Write
  | 0, l => (l, [])
  | _ + 1, [] => ([], [])
  | fuel + 1, c :: rest =>
    let skip : List Char × List Write :=
      let (r, w) := subMdImagesFuel attachments notebook_path images_dir
        notebook_slug fs_exists fuel rest
      (c :: r, w)
    if c = '!' then
      match rest with
      | '[' :: r2 =>
        let alt := r2.takeWhile (fun x => x ≠ ']')
        (match r2.drop alt.length with
         | ']' :: '(' :: r3 =>
           let pth := r3.takeWhile (fun x => x ≠ ')')
           if pth.isEmpty then skip
           else
             match r3.drop pth.length with
             | ')' :: r4 =>
               let (txt, ws) := replace_image ⟨alt⟩ ⟨pth⟩ attachments
                 notebook_path images_dir notebook_slug fs_exists
               let (r, w) := subMdImagesFuel attachments notebook_path images_dir
                 notebook_slug fs_exists fuel r4
               (txt.data ++ r, ws ++ w)
             | _ => skip
         | _ => skip)
      | _ => skip
    else skip

/-- The substitution `re.sub(r"<img\s+[^>]*>", replace_html_img, source)`
(`notebook_to_mdx.py` line 250): a case-sensitive `<img`, at least one
whitespace character, then everything up to the first `>`. -/
def subHtmlImgFuel (notebook_path images_dir notebook_slug : String)
    (fs_exists : String → Bool) : Nat → List Char → List Char × List Write
  | 0, l => (l, [])
  | _ + 1, [] => ([], [])
  | fuel + 1, c :: rest =>
    let skip : List Char × List Write :=
      let (r, w) := subHtmlImgFuel notebook_path images_dir notebook_slug
        fs_exists fuel rest
      (c :: r, w)
    match c :: rest with
    | '<' :: 'i' :: 'm' :: 'g' :: t =>
      let ws := t.takeWhile isPySpace
      if ws.isEmpty then skip
      else
        let body := (t.drop ws.length).takeWhile (fun x => x ≠ '>')
        (match (t.drop ws.length).drop body.length with
         | '>' :: rem =>
           let full_tag : String :=
             ⟨'<' :: 'i' :: 'm' :: 'g' :: (ws ++ body ++ ['>'])⟩
           let (txt, w1) := replace_html_img full_tag notebook_path images_dir
             notebook_slug fs_exists
           let (r, w) := subHtmlImgFuel notebook_path images_dir notebook_slug
             fs_exists fuel rem
           (txt.data ++ r, w1 ++ w)
         | _ => skip)
    | _ => skip

/-- `notebook_to_mdx.py` lines 111–252, `process_images`: rewrite markdown
image references, then HTML `<img>` tags, collecting the file writes in
match order.  (The `images_dir.mkdir` call is a directory-creation side
effect not modelled here.) -/
def process_images (source : String)
    (attachments : List (String × List (String × String)))
    (notebook_path images_dir notebook_slug : String)
    (fs_exists : String → Bool) : String × List Write :=
  let (s1, w1) := subMdImagesFuel attachments notebook_path images_dir
    notebook_slug fs_exists source.data.length source.data
  let (s2, w2) := subHtmlImgFuel notebook_path images_dir notebook_slug
    fs_exists s1.length s1
  (⟨s2⟩, w1 ++ w2)

/-- `notebook_to_mdx.py` lines 81–108, `sanitize_markdown_for_mdx`: fix the
HTML void elements, then escape every `{` and `}` (in that order, on the
whole text — fenced code blocks are not exempted). -/
def sanitize_markdown_for_mdx (text : String) : String :=
  pyReplace (pyReplace (fix_html_void_elements text) "\x7b" "\\\x7b") "\x7d" "\\\x7d"

/-- One numbered table-of-contents item,
`\d+\.\s*\[[^\]]+\]\([^)]+\)\n*`: digits, a dot, optional whitespace, a
markdown link, then a run of newlines.  Returns the rest after the item. -/
def tocItemNum (l : List Char) : Option (List Char) :=
  let ds := l.takeWhile Char.isDigit
  if ds.isEmpty then none
  else
    match l.drop ds.length with
    | '.' :: r2 =>
      let ws := r2.takeWhile isPySpace
      match r2.drop ws.length with
      | '[' :: r3 =>
        let txt := r3.takeWhile (fun c => c ≠ ']')
        if txt.isEmpty then none
        else
          match r3.drop txt.length with
          | ']' :: '(' :: r4 =>
            let u := r4.takeWhile (fun c => c ≠ ')')
            if u.isEmpty then none
            else
              match r4.drop u.length with
              | ')' :: r5 => some (r5.dropWhile (fun c => c = '\n'))
              | _ => none
          | _ => none
      | _ => none
    | _ => none

/-- One bulleted table-of-contents item, `-\s*\[[^\]]+\]\([^)]+\)\n*`. -/
def tocItemBullet (l : List Char) : Option (List Char) :=
  match l with
  | '-' :: r2 =>
    let ws := r2.takeWhile isPySpace
    (match r2.drop ws.length with
     | '[' :: r3 =>
       let txt := r3.takeWhile (fun c => c ≠ ']')
       if txt.isEmpty then none
       else
         match r3.drop txt.length with
         | ']' :: '(' :: r4 =>
           let u := r4.takeWhile (fun c => c ≠ ')')
           if u.isEmpty then none
           else
             match r4.drop u.length with
             | ')' :: r5 => some (r5.dropWhile (fun c => c = '\n'))
             | _ => none
         | _ => none
     | _ => none)
  | _ => none

/-- `(item)+`: as many items as possible, at least one; returns the rest. -/
def tocItems (item : List Char → Option (List Char)) :
    Nat → List Char → Option (List Char)
  | 0, _ => none
  | fuel + 1, l =>
    match item l with
    | none => none
    | some r =>
      match tocItems item fuel r with
      | some r2 => some r2
      | none => some r

/-- One attempted match of a whole table-of-contents block at the head of
`l`: the literal `## Table of Contents`, one or more newlines, then one or
more items.  Returns the rest after the match. -/
def matchToc (item : List Char → Option (List Char)) (l : List Char) :
    Option (List Char) :=
  if ("## Table of Contents".data).isPrefixOf l then
    let r := l.drop 20
    let nls := r.takeWhile (fun c => c = '\n')
    if nls.isEmpty then none
    else tocItems item (r.length + 1) (r.drop nls.length)
  else none

/-- The substitution deleting every table-of-contents block for one item
shape. -/
def tocSubFuel (item : List Char → Option (List Char)) :
    Nat → List Char → List Char
  | 0, l => l
  | _ + 1, [] => []
  | fuel + 1, c :: rest =>
    match matchToc item (c :: rest) with
    | some rem => tocSubFuel item fuel rem
    | none => c :: tocSubFuel item fuel rest

/-- `notebook_to_mdx.py` lines 62–78, `remove_table_of_contents`: delete
`## Table of Contents` blocks made of numbered link items, then those made
of bulleted link items. -/
def remove_table_of_contents (text : String) : String :=
  let s1 := tocSubFuel tocItemNum text.data.length text.data
  ⟨tocSubFuel tocItemBullet s1.length s1⟩

/-- Inner line loop of `extract_description_from_markdown`
(`notebook_to_mdx.py` lines 37–58): the first `"# "` line flips `found_h1`;
after that, the first non-empty stripped line not starting with `#` or `![`
is returned, with markdown links reduced to their text and 160-character
truncation.  Returns the updated flag and the found description. -/
def desc_lines (fh : Bool) : List (List Char) → Bool × Option (List Char)
  | [] => (fh, none)
  | line :: rest =>
    let ls := pyStripL line
    if List.isPrefixOf ['#', ' '] ls && !fh then desc_lines true rest
    else if fh && !ls.isEmpty then
      if ls.head? = some '#' then desc_lines fh rest
      else if List.isPrefixOf ['!', '['] ls then desc_lines fh rest
      else (fh, some (truncate160 (linkSub ls)))
    else desc_lines fh rest

/-- Cell loop of `extract_description_from_markdown`
(`notebook_to_mdx.py` lines 31–59), threading `found_h1` across cells. -/
def extract_description_aux (fh : Bool) : List Cell → String
  | [] => ""
  | .markdown source _ :: rest =>
    (match desc_lines fh (splitNlChars source.data) with
     | (_, some d) => ⟨d⟩
     | (fh', none) => extract_description_aux fh' rest)
  | _ :: rest => extract_description_aux fh rest

/-- `notebook_to_mdx.py` lines 31–59, `extract_description_from_markdown`. -/
def extract_description_from_markdown (cells : List Cell) : String :=
  extract_description_aux false cells

/-- `re.search(r"^#\s+", source, re.MULTILINE)` truthiness (line 314): some
line starts with `#` followed by at least one whitespace character (which
may be the newline itself). -/
def searchH1wsFuel : Nat → List Char → Bool
  | 0, _ => false
  | _ + 1, [] => false
  | fuel + 1, c :: rest =>
    (c = '#' && (match rest with | d :: _ => isPySpace d | [] => false)) ||
      searchH1wsFuel fuel (((c :: rest).dropWhile (fun d => d ≠ '\n')).tail)

/-- Line filter of the first-H1 removal (`notebook_to_mdx.py` lines
316–325): drop the first line matching `re.match(r"^#\s+", line)`, and
report whether one was found (only then is `skip_first_h1` cleared). -/
def h1filter_lines : List (List Char) → List (List Char) × Bool
  | [] => ([], false)
  | l :: rest =>
    if (match l with | '#' :: d :: _ => isPySpace d | _ => false) then (rest, true)
    else
      let (r, f) := h1filter_lines rest
      (l :: r, f)

/-- The language for code fences (`notebook_to_mdx.py` lines 281–286):
`language_info.name or kernelspec.language or "python"`, with Python's
falsiness for `None` and the empty string. -/
def nb_language (li ks : Option String) : String :=
  match li with
  | some s =>
    if s ≠ "" then s
    else match ks with
      | some k => if k ≠ "" then k else "python"
      | none => "python"
  | none =>
    match ks with
    | some k => if k ≠ "" then k else "python"
    | none => "python"

/-- The cell loop of `convert_notebook_to_mdx`
(`notebook_to_mdx.py` lines 297–339): blank-source cells are skipped; a
markdown cell has its images processed, the first level-1 heading removed
once per document, tables of contents removed, and is sanitized (appended
with a blank separator when non-blank); a code cell becomes a fenced block
in the notebook's language.  Returns the collected parts and image
writes. -/
def cell_loop (language notebook_path images_dir notebook_slug : String)
    (fs_exists : String → Bool) :
    Bool → List Cell → List String × List Write
  | _, [] => ([], [])
  | skip_first_h1, cell :: rest =>
    if !pyTruthy cell.source then
      cell_loop language notebook_path images_dir notebook_slug fs_exists
        skip_first_h1 rest
    else
      match cell with
      | .markdown source atts =>
        let (s1, ws) := process_images source atts notebook_path images_dir
          notebook_slug fs_exists
        let (s2, skip') :=
          if skip_first_h1 && searchH1wsFuel (s1.data.length + 1) s1.data then
            let (ls, found) := h1filter_lines (splitNlChars s1.data)
            ((⟨joinNlChars ls⟩ : String), if found then false else skip_first_h1)
          else (s1, skip_first_h1)
        let sanitized := sanitize_markdown_for_mdx (remove_table_of_contents s2)
        let (parts, ws2) := cell_loop language notebook_path images_dir
          notebook_slug fs_exists skip' rest
        ((if pyTruthy sanitized then [sanitized, ""] else []) ++ parts, ws ++ ws2)
      | .code source _ =>
        let (parts, ws2) := cell_loop language notebook_path images_dir
          notebook_slug fs_exists skip_first_h1 rest
        (["```" ++ language, source, "```", ""] ++ parts, ws2)
      | .other _ =>
        cell_loop language notebook_path images_dir notebook_slug fs_exists
          skip_first_h1 rest

/-- `notebook_to_mdx.py` lines 255–356, `convert_notebook_to_mdx`: a
notebook with no cells is skipped (`None`); otherwise the document is the
frontmatter lines (`---`, `title: "..."`, `---`, blank) followed by the
processed cells, joined with newlines, written to
`{output_dir}/{stem with _→-}.mdx`.  Returns the output path, the content
and the image writes. -/
def convert_notebook_to_mdx (notebook_path output_dir : String)
    (cells : List Cell) (li ks : Option String) (fs_exists : String → Bool) :
    Option (String × String × List Write) :=
  if cells.isEmpty then none
  else
    let stem := stemOf notebook_path
    let slug := notebook_slug stem
    let images_dir := output_dir ++ "/images"
    let title := extract_title_from_markdown cells
    let language := nb_language li ks
    let (parts, ws) := cell_loop language notebook_path images_dir slug
      fs_exists true cells
    let mdx_parts := ["---", "title: \"" ++ title ++ "\"", "---", ""] ++ parts
    some (output_dir ++ "/" ++ output_name stem, joinNl mdx_parts, ws)

/-- The batch loop of `main` (`notebook_to_mdx.py` lines 398–402): each
notebook is converted in turn and only non-skipped results are collected;
a skip does not stop the batch. -/
def batch (output_dir : String) (fs_exists : String → Bool) :
    List (String × List Cell × Option String × Option String) → List String
  | [] => []
  | (path, cells, li, ks) :: rest =>
    match convert_notebook_to_mdx path output_dir cells li ks fs_exists with
    | some (out, _, _) => out :: batch output_dir fs_exists rest
    | none => batch output_dir fs_exists rest

end notebook_to_mdx

namespace convert_mdx

open NbMdx

/-- `convert_notebook_to_mdx.py` lines 295 and 356: the output document's
file name, `f"{notebook_path.stem}.mdx"`. -/
def output_name (stem : String) : String := stem ++ ".mdx"

/-- `convert_notebook_to_mdx.py` line 179: the fallback title,
`notebook_path.stem.replace("_", " ").replace("-", " ")`. -/
def title_fallback (stem : String) : String :=
  pyReplace (pyReplace stem "_" " ") "-" " "

/-- `convert_notebook_to_mdx.py` lines 178–188 (`generate_frontmatter`'s
title loop): the title is the stripped group of
`re.match(r"^#\s+(.+)$", source, re.MULTILINE)` for the first markdown cell
whose source matches at its start; otherwise the stem with underscores and
dashes replaced by spaces. -/
def extract_title (stem : String) : List Cell → String
  | [] => title_fallback stem
  | .markdown source _ :: rest =>
    (match matchH1 source with
     | some g => pyStrip g
     | none => extract_title stem rest)
  | _ :: rest => extract_title stem rest

/-- Inner line loop of `extract_description`
(`convert_notebook_to_mdx.py` lines 145–168): the first stripped line
starting `"# "` flips `found_title`; any line that is empty or starts with
`#` or `<` is skipped; otherwise the line — *before or after the heading* —
has link/bold/italic/code markup stripped and, unless the residue is empty
or starts with `<`, is returned truncated to 160 characters. -/
def desc_lines (ft : Bool) : List (List Char) → Bool × Option (List Char)
  | [] => (ft, none)
  | line :: rest =>
    let l := pyStripL line
    if List.isPrefixOf ['#', ' '] l && !ft then desc_lines true rest
    else if l.isEmpty || l.head? = some '#' || l.head? = some '<' then
      desc_lines ft rest
    else
      let desc := clean_desc l
      if desc.head? = some '<' || desc.isEmpty then desc_lines ft rest
      else (ft, some (truncate160 desc))

/-- Cell loop of `extract_description`
(`convert_notebook_to_mdx.py` lines 137–169), threading `found_title`.
Note the Python source applies `.strip()` to the whole cell source before
splitting it into lines. -/
def extract_description_aux (ft : Bool) : List Cell → String
  | [] => ""
  | .markdown source _ :: rest =>
    (match desc_lines ft (splitNlChars (pyStrip source).data) with
     | (_, some d) => ⟨d⟩
     | (ft', none) => extract_description_aux ft' rest)
  | _ :: rest => extract_description_aux ft rest

/-- `convert_notebook_to_mdx.py` lines 137–169, `extract_description`. -/
def extract_description (cells : List Cell) : String :=
  extract_description_aux false cells

/-- `convert_notebook_to_mdx.py` line 128: `re.sub(r"\x1b\[[0-9;]*m", "", tb_text)`,
removal of ANSI colour escape sequences: at each position, `ESC` `[`
followed by a run of digits or semicolons and a final `m` is deleted;
anything else is kept. -/
def stripAnsiFuel : Nat → List Char → List Char
  | 0, l => l
  | _ + 1, [] => []
  | fuel + 1, c :: rest =>
    if c = '\x1b' then
      match rest with
      | '[' :: r2 =>
        match r2.dropWhile (fun d => d.isDigit || d = ';') with
        | 'm' :: tail => stripAnsiFuel fuel tail
        | _ => c :: stripAnsiFuel fuel rest
      | _ => c :: stripAnsiFuel fuel rest
    else c :: stripAnsiFuel fuel rest

/-- ANSI escape removal on strings (`convert_notebook_to_mdx.py` line 128). -/
def stripAnsi (s : String) : String := ⟨stripAnsiFuel s.data.length s.data⟩

/-- The `data` branch of `process_code_cell`
(`convert_notebook_to_mdx.py` lines 82–119): the if/elif chain over the
mime types of an `execute_result` / `display_data` output. -/
def process_data (data : List (String × String)) : List String :=
  if (data.lookup "image/png").isSome then
    ["\n<Frame>\n  <img src=\"data:image/png;base64," ++
      ((data.lookup "image/png").getD "") ++ "\" alt=\"Output\" />\n</Frame>\n"]
  else if (data.lookup "image/jpeg").isSome then
    ["\n<Frame>\n  <img src=\"data:image/jpeg;base64," ++
      ((data.lookup "image/jpeg").getD "") ++ "\" alt=\"Output\" />\n</Frame>\n"]
  else if (data.lookup "image/svg+xml").isSome then
    ["\n<Frame>\n" ++ ((data.lookup "image/svg+xml").getD "") ++ "\n</Frame>\n"]
  else if (data.lookup "text/html").isSome then
    let html_content := (data.lookup "text/html").getD ""
    if pyContains (pyLower html_content) "<table" then
      ["\n<Expandable title=\"Table Output\">\n```html\n" ++ html_content ++
        "\n```\n</Expandable>\n"]
    else
      ["\n<Expandable title=\"HTML Output\">\n```html\n" ++ html_content ++
        "\n```\n</Expandable>\n"]
  else if (data.lookup "text/plain").isSome then
    let text := (data.lookup "text/plain").getD ""
    if pyTruthy text then
      ["\n<Expandable title=\"Output\">\n```\n" ++ pyRStrip text ++
        "\n```\n</Expandable>\n"]
    else []
  else []

/-- One iteration of the output loop of `process_code_cell`
(`convert_notebook_to_mdx.py` lines 70–132): the fragments (zero or one)
appended to `result` for a single output. -/
def process_output : Output → List String
  | .stream text =>
    if pyTruthy text then
      ["\n<Expandable title=\"Output\">\n```\n" ++ pyRStrip text ++
        "\n```\n</Expandable>\n"]
    else []
  | .execute_result data => process_data data
  | .display_data data => process_data data
  | .error ename traceback =>
    ["\n<Expandable title=\"Error: " ++ ename ++ "\">\n```\n" ++
      stripAnsi (joinNl traceback) ++ "\n```\n</Expandable>\n"]
  | .other => []

/-- `convert_notebook_to_mdx.py` lines 55–134, `process_code_cell`: fenced
`python` code block for a non-blank source, then (when `show_output`) the
rendered outputs in encounter order, joined with newlines. -/
def process_code_cell (source : String) (outputs : List Output)
    (show_output : Bool) : String :=
  let result := if pyTruthy source then ["```python\n" ++ source ++ "\n```\n"] else []
  if !show_output then joinNl result ++ "\n"
  else joinNl (result ++ outputs.flatMap process_output) ++ "\n"

/-- `convert_notebook_to_mdx.py` lines 18–22, `escape_mdx_text` (defined in
the script but never called): escape curly braces. -/
def escape_mdx_text (text : String) : String :=
  pyReplace (pyReplace text "\x7b" "\\\x7b") "\x7d" "\\\x7d"

/-- `convert_notebook_to_mdx.py` lines 47–52, `process_markdown_cell`: fix
the HTML void elements and append a blank separator. -/
def process_markdown_cell (source : String) : String :=
  fix_html_void_elements source ++ "\n\n"

/-- `convert_notebook_to_mdx.py` lines 205–212: the category → icon map. -/
def icon_map : List (String × String) :=
  [("Getting_Started", "rocket"), ("Analyzing_Data", "chart-line"),
   ("Reading_and_Writing_Data", "database"), ("Open_Data_Connections", "plug"),
   ("Foreign_Catalogs", "folder-tree"), ("scala", "code")]

/-- `convert_notebook_to_mdx.py` lines 172–220, `generate_frontmatter`, as
its list of lines: `---`, the raw (unescaped) title in quotes, the
description with its double quotes escaped when non-empty, an icon line for
a known non-empty category, then `---` and a blank line. -/
def frontmatter_lines (stem : String) (cells : List Cell)
    (category : Option String) : List String :=
  ["---", "title: \"" ++ extract_title stem cells ++ "\""] ++
  (let description := extract_description cells
   if description ≠ "" then
     ["description: \"" ++ pyReplace description "\"" "\\\"" ++ "\""]
   else []) ++
  (match category with
   | some cat =>
     if cat ≠ "" then
       match icon_map.lookup cat with
       | some icon => ["icon: \"" ++ icon ++ "\""]
       | none => []
     else []
   | none => []) ++
  ["---", ""]

/-- `generate_frontmatter`'s result: the lines joined plus a newline. -/
def generate_frontmatter (stem : String) (cells : List Cell)
    (category : Option String) : String :=
  joinNl (frontmatter_lines stem cells category) ++ "\n"

/-- `re.match(r"^#\s+", content)` truthiness
(`convert_notebook_to_mdx.py` line 245): the content starts with `#` and a
whitespace character. -/
def guardH1 (s : String) : Bool :=
  match s.data with
  | '#' :: d :: _ => isPySpace d
  | _ => false

/-- `re.sub(r"^#\s+.+\n*", "", content, count=1)`
(`convert_notebook_to_mdx.py` line 248), without `re.MULTILINE`: anchored
at the start, `\s+` greedy (backtracking off the end of the text to the
last non-newline position, as in `tailMatch`), `.+` to the end of that
line, then the following run of newlines; the match is deleted. -/
def removeFirstH1 (s : String) : String :=
  match s.data with
  | '#' :: t =>
    let j := (t.takeWhile isPySpace).length
    if j = 0 then s
    else if j < t.length then
      ⟨((t.drop j).dropWhile (fun c => c ≠ '\n')).dropWhile (fun c => c = '\n')⟩
    else
      match lastBacktrack t with
      | some i =>
        ⟨((t.drop i).dropWhile (fun c => c ≠ '\n')).dropWhile (fun c => c = '\n')⟩
      | none => s
  | _ => s

/-- The cell loop of `convert_notebook_to_mdx`
(`convert_notebook_to_mdx.py` lines 238–256): markdown cells are processed
by `process_markdown_cell`; the first cell whose processed content begins
with a level-1 heading has that heading removed (the cell contributing
nothing when the remainder is blank); code cells go through
`process_code_cell`. -/
def conv_cells (show_output : Bool) : Bool → List Cell → List String
  | _, [] => []
  | skip_first_h1, cell :: rest =>
    match cell with
    | .markdown source _ =>
      let content := process_markdown_cell source
      if skip_first_h1 && guardH1 content then
        let content2 := removeFirstH1 content
        (if pyTruthy content2 then [content2] else []) ++
          conv_cells show_output false rest
      else content :: conv_cells show_output skip_first_h1 rest
    | .code source outputs =>
      process_code_cell source outputs show_output ::
        conv_cells show_output skip_first_h1 rest
    | .other _ => conv_cells show_output skip_first_h1 rest

/-- `convert_notebook_to_mdx.py` lines 223–257, `convert_notebook_to_mdx`:
frontmatter followed by the processed cells, concatenated.  There is no
empty-notebook check: a notebook with no cells still yields a
frontmatter-only document. -/
def convert_notebook_to_mdx (stem : String) (cells : List Cell)
    (show_output : Bool) (category : Option String) : String :=
  generate_frontmatter stem cells category ++
    joinAll (conv_cells show_output true cells)

/-- `convert_notebook_to_mdx.py` lines 260–268, `should_exclude_notebook`. -/
def should_exclude_notebook (filename : String) : Bool :=
  pyStartsWith filename "Raster_Inference"

/-- The batch loop of `convert_all_notebooks`
(`convert_notebook_to_mdx.py` lines 271–307): excluded notebooks are
skipped; every other notebook is converted and recorded as converted
(there is no empty-notebook skip).  Returns the converted output names and
the skipped file names. -/
def convert_all : List (String × String × List Cell) → List String × List String
  | [] => ([], [])
  | (filename, stem, _cells) :: rest =>
    let (c, s) := convert_all rest
    if should_exclude_notebook filename then (c, filename :: s)
    else (output_name stem :: c, s)

end convert_mdx

namespace NbMdx

/-- Modelled from the spec: "Output filename = lowercase, dash-separated
notebook stem + fixed extension" — lowercase the stem and replace
underscores with dashes, then append `.mdx`. -/
def spec_output_name (stem : String) : String :=
  pyLower (pyReplace stem "_" "-") ++ ".mdx"

/-- Modelled from the spec/claim: the title is the text of the first
level-1 heading (a line beginning `# `) found in any markdown cell,
`"Untitled"` when no markdown cell contains one. -/
def spec_title : List Cell → String
  | [] => "Untitled"
  | .markdown source _ :: rest =>
    (match (splitNlChars source.data).find? (fun l => List.isPrefixOf ['#', ' '] l) with
     | some l => pyStrip ⟨l.drop 2⟩
     | none => spec_title rest)
  | _ :: rest => spec_title rest

/-- A line on which the regex `^#\s+(.+)$` behaves exactly like the
informal "line beginning `# `" reading: a line starting with `#` is not the
bare `#` (whose `\s+` would swallow the newline), its following whitespace
character (if any) is a plain space, and the heading text is non-empty
within the line. -/
def lineOkB (l : List Char) : Bool :=
  match l with
  | '#' :: [] => false
  | '#' :: d :: t =>
    if isPySpace d then d = ' ' && !((d :: t).dropWhile isPySpace).isEmpty
    else true
  | _ => true

/-- Every line of the source is `lineOkB`. -/
def sourceOk (s : String) : Bool := (splitNlChars s.data).all lineOkB

/-- Every markdown cell's source is `sourceOk`. -/
def cellsOk (cells : List Cell) : Bool :=
  cells.all fun c =>
    match c with
    | .markdown s _ => sourceOk s
    | _ => true

/-- Modelled from the spec: the fixed preference order of output
representations, `image/png > image/jpeg > image/svg+xml > text/html >
text/plain`. -/
def mime_preference : List String :=
  ["image/png", "image/jpeg", "image/svg+xml", "text/html", "text/plain"]

/-- Modelled from the spec: the selected representation of an
`execute_result`/`display_data` output is the highest-preference mime type
present in its `data` mapping. -/
def selected_mime (data : List (String × String)) : Option String :=
  mime_preference.find? (fun m => (data.lookup m).isSome)

/-- The rendering of a single selected representation, as a function of the
selected mime type and of its payload alone (fragment bodies as emitted by
`process_code_cell`, `convert_notebook_to_mdx.py` lines 85–119). -/
def render_mime (m payload : String) : List String :=
  if m = "image/png" then
    ["\n<Frame>\n  <img src=\"data:image/png;base64," ++ payload ++
      "\" alt=\"Output\" />\n</Frame>\n"]
  else if m = "image/jpeg" then
    ["\n<Frame>\n  <img src=\"data:image/jpeg;base64," ++ payload ++
      "\" alt=\"Output\" />\n</Frame>\n"]
  else if m = "image/svg+xml" then
    ["\n<Frame>\n" ++ payload ++ "\n</Frame>\n"]
  else if m = "text/html" then
    if pyContains (pyLower payload) "<table" then
      ["\n<Expandable title=\"Table Output\">\n```html\n" ++ payload ++
        "\n```\n</Expandable>\n"]
    else
      ["\n<Expandable title=\"HTML Output\">\n```html\n" ++ payload ++
        "\n```\n</Expandable>\n"]
  else if m = "text/plain" then
    if pyTruthy payload then
      ["\n<Expandable title=\"Output\">\n```\n" ++ pyRStrip payload ++
        "\n```\n</Expandable>\n"]
    else []
  else []

theorem pyTruthy_eq_false {s : String} (h : pyStrip s = "") : pyTruthy s = false := by
  have hd : pyStripL s.data = [] := congrArg String.data h
  simp [pyTruthy, hd]

theorem replaceFuel_singleton_eq_map (fuel : Nat) (l : List Char) (h : l.length ≤ fuel) :
    replaceFuel ['_'] ['-'] fuel l = l.map (fun c => if c = '_' then '-' else c) := by
  induction fuel generalizing l with
  | zero =>
    have : l = [] := List.length_eq_zero.mp (Nat.le_zero.mp h)
    simp [this, replaceFuel]
  | succ fuel ih =>
    cases l with
    | nil => simp [replaceFuel]
    | cons c rest =>
      have hrest : rest.length ≤ fuel := by
        simpa [Nat.succ_le_succ_iff] using h
      rw [replaceFuel]
      by_cases hc : c = '_'
      · subst hc
        have hpre : List.isPrefixOf ['_'] ('_' :: rest) = true := by
          simp [List.isPrefixOf]
        simp [hpre, ih rest hrest]
      · have hpre : List.isPrefixOf ['_'] (c :: rest) = false := by
          simp [List.isPrefixOf]
          exact fun hx => absurd hx.symm hc
        simp [hpre, hc, ih rest hrest]

theorem replaceL_singleton_eq_map (l : List Char) :
    replaceL ['_'] ['-'] l = l.map (fun c => if c = '_' then '-' else c) :=
  replaceFuel_singleton_eq_map l.length l le_rfl

theorem drop_takeWhile_len (p : Char → Bool) (l : List Char) :
    l.drop (l.takeWhile p).length = l.dropWhile p := by
  induction l with
  | nil => simp
  | cons c rest ih =>
    by_cases h : p c
    · simp [List.takeWhile_cons_of_pos h, List.dropWhile_cons_of_pos h, ih]
    · simp [List.takeWhile_cons_of_neg h, List.dropWhile_cons_of_neg h]

theorem dropWhile_dropWhile (p : Char → Bool) (l : List Char) :
    (l.dropWhile p).dropWhile p = l.dropWhile p := by
  induction l with
  | nil => simp
  | cons c rest ih =>
    by_cases h : p c
    · simp [List.dropWhile_cons_of_pos h, ih]
    · simp [List.dropWhile_cons_of_neg h]

theorem pyStripL_dropWhile (l : List Char) :
    pyStripL (l.dropWhile isPySpace) = pyStripL l := by
  unfold pyStripL
  rw [dropWhile_dropWhile]

theorem len_dropWhile_le (p : Char → Bool) (l : List Char) :
    (l.dropWhile p).length ≤ l.length := by
  induction l with
  | nil => simp
  | cons c rest ih =>
    by_cases h : p c
    · rw [List.dropWhile_cons_of_pos h]
      exact le_trans ih (by simp)
    · rw [List.dropWhile_cons_of_neg h]

theorem takeWhile_eq_self_of_all (p : Char → Bool) (l : List Char)
    (h : ∀ x ∈ l, p x = true) : l.takeWhile p = l := by
  induction l with
  | nil => simp
  | cons c rest ih =>
    rw [List.takeWhile_cons_of_pos (h c (by simp))]
    rw [ih fun x hx => h x (by simp [hx])]

theorem splitNlChars_decomp (l : List Char) :
    splitNlChars l = l.takeWhile (fun d => d ≠ '\n') ::
      (match l.dropWhile (fun d => d ≠ '\n') with
       | [] => []
       | _ :: s' => splitNlChars s') := by
  induction l with
  | nil => simp [splitNlChars]
  | cons c rest ih =>
    by_cases h : c = '\n'
    · subst h
      simp [splitNlChars]
    · simp only [splitNlChars, if_neg h]
      rw [ih]
      simp [List.takeWhile_cons, List.dropWhile_cons, h]

theorem searchH1Fuel_nil (fuel : Nat) : searchH1Fuel fuel [] = none := by
  cases fuel <;> simp [searchH1Fuel]

/-- On a text whose first line (after the `#`) is `' ' :: t` with some
non-whitespace content, `\s+(.+)$` matches within the line and group 1 is
the line with its leading whitespace dropped. -/
theorem tailMatch_heading (rest t : List Char)
    (ha : rest.takeWhile (fun d => d ≠ '\n') = ' ' :: t)
    (hdw : (' ' :: t).dropWhile isPySpace ≠ []) :
    tailMatch rest = some ((' ' :: t).dropWhile isPySpace) := by
  have hab : rest = (' ' :: t) ++ rest.dropWhile (fun d => d ≠ '\n') := by
    conv_lhs => rw [← List.takeWhile_append_dropWhile (fun d => d ≠ '\n') rest]
    rw [ha]
  have hbshape : rest.dropWhile (fun d => d ≠ '\n') = [] ∨
      ∃ s', rest.dropWhile (fun d => d ≠ '\n') = '\n' :: s' := by
    cases hb : rest.dropWhile (fun d => d ≠ '\n') with
    | nil => exact Or.inl rfl
    | cons x s' =>
      right
      refine ⟨s', ?_⟩
      have hx := List.head?_dropWhile_not (fun d => d ≠ '\n') rest
      rw [hb] at hx
      simp at hx
      rw [hx]
  have hnl : ∀ x ∈ (' ' :: t), x ≠ '\n' := by
    intro x hx
    have := List.mem_takeWhile_imp (ha ▸ hx)
    simpa using this
  have hlts := congrArg List.length
    (List.takeWhile_append_dropWhile isPySpace (' ' :: t))
  have hdwpos : 0 < ((' ' :: t).dropWhile isPySpace).length :=
    List.length_pos.mpr hdw
  have htwlt : ((' ' :: t).takeWhile isPySpace).length < (' ' :: t).length := by
    rw [List.length_append] at hlts
    omega
  have htw : rest.takeWhile isPySpace = (' ' :: t).takeWhile isPySpace := by
    conv_lhs => rw [hab]
    rw [List.takeWhile_append]
    rw [if_neg (by omega)]
  have hj1 : 0 < (rest.takeWhile isPySpace).length := by
    rw [htw]
    simp [List.takeWhile_cons_of_pos (show isPySpace ' ' = true from rfl)]
  have hjlt : (rest.takeWhile isPySpace).length < rest.length := by
    rw [htw]
    conv_rhs => rw [hab]
    rw [List.length_append]
    omega
  have hone : ((' ' :: t).dropWhile isPySpace).takeWhile
      (fun x => x ≠ '\n') = (' ' :: t).dropWhile isPySpace := by
    apply takeWhile_eq_self_of_all
    intro x hx
    have hxin : x ∈ (' ' :: t) := by
      have hsub := List.takeWhile_append_dropWhile isPySpace (' ' :: t)
      rw [← hsub]
      exact List.mem_append.mpr (Or.inr hx)
    simpa using hnl x hxin
  have hgroup : (rest.drop (rest.takeWhile isPySpace).length).takeWhile
      (fun x => x ≠ '\n') = (' ' :: t).dropWhile isPySpace := by
    rw [htw]
    conv_lhs => rw [hab]
    rw [List.drop_append_of_le_length (Nat.le_of_lt htwlt),
      drop_takeWhile_len]
    have hcond : (((' ' :: t).dropWhile isPySpace).takeWhile
        (fun x => x ≠ '\n')).length =
        ((' ' :: t).dropWhile isPySpace).length := by
      rw [hone]
    rw [List.takeWhile_append, if_pos hcond]
    rcases hbshape with hb | ⟨s', hb⟩
    · rw [hb]; simp
    · rw [hb]; simp
  simp only [tailMatch]
  rw [if_neg (by omega), if_pos hjlt, hgroup]

/-- On a text whose first line (after the `#`) starts with a non-whitespace
character, `\s+(.+)$` fails to match at this position. -/
theorem tailMatch_nonspace (rest : List Char) (d : Char) (t : List Char)
    (ha : rest.takeWhile (fun x => x ≠ '\n') = d :: t)
    (hd : ¬ isPySpace d = true) :
    tailMatch rest = none := by
  have hab : rest = (d :: t) ++ rest.dropWhile (fun x => x ≠ '\n') := by
    conv_lhs => rw [← List.takeWhile_append_dropWhile (fun d => d ≠ '\n') rest]
    rw [ha]
  have htw0 : rest.takeWhile isPySpace = [] := by
    conv_lhs => rw [hab]
    rw [List.takeWhile_append]
    simp only [List.takeWhile_cons_of_neg hd]
    simp
  simp only [tailMatch]
  rw [htw0]
  simp

theorem searchH1Fuel_lineSpec (fuel : Nat) (s : List Char)
    (hlen : s.length + 1 ≤ fuel)
    (hok : (splitNlChars s).all lineOkB = true) :
    (searchH1Fuel fuel s).map pyStripL =
      ((splitNlChars s).find? (fun l => List.isPrefixOf ['#', ' '] l)).map
        (fun l => pyStripL (l.drop 2)) := by
  induction fuel generalizing s with
  | zero => omega
  | succ fuel ih =>
    cases s with
    | nil =>
      simp [searchH1Fuel, splitNlChars, List.find?]
    | cons c rest =>
      by_cases hc : c = '\n'
      · subst hc
        have e1 : searchH1Fuel (fuel + 1) ('\n' :: rest) = searchH1Fuel fuel rest := by
          simp [searchH1Fuel, List.dropWhile_cons]
        have e2 : splitNlChars ('\n' :: rest) = [] :: splitNlChars rest := by
          simp [splitNlChars]
        rw [e1, e2, List.find?_cons_of_neg _ (by decide)]
        refine ih rest ?_ ?_
        · simp only [List.length_cons] at hlen
          omega
        · rw [e2] at hok
          simp only [List.all_cons, Bool.and_eq_true] at hok
          exact hok.2
      · have e2 : splitNlChars (c :: rest) =
            (c :: rest.takeWhile (fun d => d ≠ '\n')) ::
              (match rest.dropWhile (fun d => d ≠ '\n') with
               | [] => ([] : List (List Char))
               | _ :: s' => splitNlChars s') := by
          rw [splitNlChars_decomp (c :: rest)]
          simp [List.takeWhile_cons, List.dropWhile_cons, hc]
        have hbshape : rest.dropWhile (fun d => d ≠ '\n') = [] ∨
            ∃ s', rest.dropWhile (fun d => d ≠ '\n') = '\n' :: s' := by
          cases hb : rest.dropWhile (fun d => d ≠ '\n') with
          | nil => exact Or.inl rfl
          | cons x s' =>
            right
            refine ⟨s', ?_⟩
            have hx := List.head?_dropWhile_not (fun d => d ≠ '\n') rest
            rw [hb] at hx
            simp at hx
            rw [hx]
        have hrec : (searchH1Fuel fuel
              ((rest.dropWhile (fun d => d ≠ '\n')).tail)).map pyStripL =
            ((match rest.dropWhile (fun d => d ≠ '\n') with
              | [] => ([] : List (List Char))
              | _ :: s' => splitNlChars s').find?
                (fun l => List.isPrefixOf ['#', ' '] l)).map
              (fun l => pyStripL (List.drop 2 l)) := by
          rcases hbshape with hb | ⟨s', hb⟩
          · rw [hb]; simp [searchH1Fuel_nil]
          · rw [hb]
            simp only [List.tail_cons]
            have hlb : (rest.dropWhile (fun d => d ≠ '\n')).length ≤ rest.length :=
              len_dropWhile_le _ _
            rw [hb] at hlb
            refine ih s' ?_ ?_
            · simp only [List.length_cons] at hlb hlen ⊢
              omega
            · rw [e2] at hok
              rw [hb] at hok
              simp only [List.all_cons, Bool.and_eq_true] at hok
              exact hok.2
        have hfirstok : lineOkB (c :: rest.takeWhile (fun d => d ≠ '\n')) = true := by
          rw [e2] at hok
          simp only [List.all_cons, Bool.and_eq_true] at hok
          exact hok.1
        have etail : ((c :: rest).dropWhile (fun d => d ≠ '\n')).tail =
            (rest.dropWhile (fun d => d ≠ '\n')).tail := by
          simp [List.dropWhile_cons, hc]
        rw [e2]
        by_cases hhash : c = '#'
        · subst hhash
          cases ha : rest.takeWhile (fun d => d ≠ '\n') with
          | nil =>
            rw [ha] at hfirstok
            simp [lineOkB] at hfirstok
          | cons d t =>
            rw [ha] at hfirstok
            by_cases hd : isPySpace d = true
            · -- heading line: `# ...` with content on the same line
              simp only [lineOkB, if_pos hd, Bool.and_eq_true, decide_eq_true_eq,
                Bool.not_eq_true', List.isEmpty_eq_false] at hfirstok
              obtain ⟨hdsp, hdw⟩ := hfirstok
              subst hdsp
              have htm := tailMatch_heading rest t ha hdw
              have e1 : searchH1Fuel (fuel + 1) ('#' :: rest) =
                  some ((' ' :: t).dropWhile isPySpace) := by
                simp [searchH1Fuel, htm]
              rw [e1]
              rw [List.find?_cons_of_pos _ (by simp [List.isPrefixOf])]
              simp only [Option.map_some']
              have hsp : (' ' :: t).dropWhile isPySpace = t.dropWhile isPySpace := by
                simp [List.dropWhile_cons_of_pos (show isPySpace ' ' = true from rfl)]
              rw [hsp, pyStripL_dropWhile]
              simp
            · -- `#` followed by a non-space: the pattern does not match here
              have htm : tailMatch rest = none := tailMatch_nonspace rest d t ha hd
              have e1 : searchH1Fuel (fuel + 1) ('#' :: rest) =
                  searchH1Fuel fuel ((rest.dropWhile (fun x => x ≠ '\n')).tail) := by
                simp only [searchH1Fuel, if_pos rfl, htm]
                rw [etail]
                simp
              rw [e1]
              have hdne : d ≠ ' ' := by
                intro h
                subst h
                exact hd rfl
              rw [List.find?_cons_of_neg _ (by simp [List.isPrefixOf, Ne.symm hdne])]
              exact hrec
        · have e1 : searchH1Fuel (fuel + 1) (c :: rest) =
              searchH1Fuel fuel ((rest.dropWhile (fun x => x ≠ '\n')).tail) := by
            simp only [searchH1Fuel, if_neg hhash]
            rw [etail]
          rw [e1]
          rw [List.find?_cons_of_neg _ (by simp [List.isPrefixOf, Ne.symm hhash])]
          exact hrec

/-- Modelled from the amended claim: `convert_notebook_to_mdx.py`'s title is
the heading text of the first markdown cell whose source *begins* with a
level-1 heading line, and, when no markdown cell does, the filename stem
with underscores and dashes replaced by spaces. -/
def spec_title_anchored (stem : String) : List Cell → String
  | [] => pyReplace (pyReplace stem "_" " ") "-" " "
  | .markdown source _ :: rest =>
    if List.isPrefixOf ['#', ' '] (source.data.takeWhile (fun d => d ≠ '\n'))
    then pyStrip ⟨(source.data.takeWhile (fun d => d ≠ '\n')).drop 2⟩
    else spec_title_anchored stem rest
  | _ :: rest => spec_title_anchored stem rest

/-- Modelled from the spec/claim: the description is the first non-empty,
non-heading, non-raw-HTML line of text appearing *after* the first level-1
heading across markdown cells, with link/bold/italic/inline-code markup
stripped to plain text, truncated with an ellipsis marker when longer than
160 characters; the empty string when no such line exists. -/
def spec_desc_lines (fh : Bool) : List (List Char) → Bool × Option (List Char)
  | [] => (fh, none)
  | line :: rest =>
    let l := pyStripL line
    if !fh then
      if List.isPrefixOf ['#', ' '] l then spec_desc_lines true rest
      else spec_desc_lines false rest
    else if l.isEmpty || l.head? = some '#' || l.head? = some '<' then
      spec_desc_lines fh rest
    else (fh, some (truncate160 (clean_desc l)))

/-- Cell loop of the spec-side description, threading the found-heading
flag across markdown cells. -/
def spec_description_aux (fh : Bool) : List Cell → String
  | [] => ""
  | .markdown source _ :: rest =>
    (match spec_desc_lines fh (splitNlChars source.data) with
     | (_, some d) => ⟨d⟩
     | (fh', none) => spec_description_aux fh' rest)
  | _ :: rest => spec_description_aux fh rest

/-- The spec-side description of a notebook. -/
def spec_description (cells : List Cell) : String := spec_description_aux false cells

theorem linkSubFuel_id (fuel : Nat) (l : List Char) (h : '[' ∉ l) :
    linkSubFuel fuel l = l := by
  induction fuel generalizing l with
  | zero => rfl
  | succ fuel ih =>
    cases l with
    | nil => rfl
    | cons c rest =>
      have hc : ¬ c = '[' := fun he => h (he ▸ List.mem_cons_self c rest)
      simp only [linkSubFuel, if_neg hc]
      rw [ih rest (fun hm => h (List.mem_cons_of_mem c hm))]

theorem boldSubFuel_id (fuel : Nat) (l : List Char) (h : '*' ∉ l) :
    boldSubFuel fuel l = l := by
  induction fuel generalizing l with
  | zero => rfl
  | succ fuel ih =>
    cases l with
    | nil => rfl
    | cons c rest =>
      have hc : ¬ c = '*' := fun he => h (he ▸ List.mem_cons_self c rest)
      simp only [boldSubFuel, if_neg hc]
      rw [ih rest (fun hm => h (List.mem_cons_of_mem c hm))]

theorem delimSubFuel_id (delim : Char) (fuel : Nat) (l : List Char)
    (h : delim ∉ l) : delimSubFuel delim fuel l = l := by
  induction fuel generalizing l with
  | zero => rfl
  | succ fuel ih =>
    cases l with
    | nil => rfl
    | cons c rest =>
      have hc : ¬ c = delim := fun he => h (he ▸ List.mem_cons_self c rest)
      simp only [delimSubFuel, if_neg hc]
      rw [ih rest (fun hm => h (List.mem_cons_of_mem c hm))]

theorem clean_desc_id (l : List Char) (h1 : '[' ∉ l) (h2 : '*' ∉ l)
    (h3 : '`' ∉ l) : clean_desc l = l := by
  unfold clean_desc linkSub boldSub italicSub codeSub
  rw [linkSubFuel_id _ _ h1, boldSubFuel_id _ _ h2,
    delimSubFuel_id _ _ _ h2, delimSubFuel_id _ _ _ h3]

theorem truncate160_id (l : List Char) (h : l.length ≤ 160) :
    truncate160 l = l := by
  unfold truncate160
  rw [if_neg (by omega)]

theorem firstLine_ok_of_sourceOk (s : String) (h : sourceOk s = true) :
    lineOkB (s.data.takeWhile (fun d => d ≠ '\n')) = true := by
  unfold sourceOk at h
  rw [splitNlChars_decomp s.data] at h
  simp only [List.all_cons, Bool.and_eq_true] at h
  exact h.1

theorem matchH1_cons (s : String) (c : Char) (rest : List Char)
    (hs : s.data = c :: rest) :
    matchH1 s = if c = '#' then (tailMatch rest).map (fun x => String.mk x)
      else none := by
  unfold matchH1
  rw [hs]

theorem matchH1_nil (s : String) (hs : s.data = []) : matchH1 s = none := by
  unfold matchH1
  rw [hs]

/-- `re.match(r"^#\s+(.+)$", s, re.M)` seen through the informal reading:
on a `lineOkB` first line, it matches exactly when the source begins with
`"# "`, and the stripped group is the stripped text after that marker. -/
theorem matchH1_lineSpec (s : String)
    (hok : lineOkB (s.data.takeWhile (fun d => d ≠ '\n')) = true) :
    (matchH1 s).map (fun g => pyStripL g.data) =
      (if List.isPrefixOf ['#', ' '] (s.data.takeWhile (fun d => d ≠ '\n'))
       then some (pyStripL ((s.data.takeWhile (fun d => d ≠ '\n')).drop 2))
       else none) := by
  cases hs : s.data with
  | nil => simp [matchH1_nil s hs]
  | cons c rest =>
    rw [matchH1_cons s c rest hs]
    rw [hs] at hok
    by_cases hc : c = '#'
    · subst hc
      rw [List.takeWhile_cons_of_pos (by decide)] at hok ⊢
      simp only [if_pos rfl]
      cases ha : rest.takeWhile (fun d => d ≠ '\n') with
      | nil =>
        rw [ha] at hok
        simp [lineOkB] at hok
      | cons d t =>
        rw [ha] at hok
        by_cases hd : isPySpace d = true
        · simp only [lineOkB, if_pos hd, Bool.and_eq_true, decide_eq_true_eq,
            Bool.not_eq_true', List.isEmpty_eq_false] at hok
          obtain ⟨hdsp, hdw⟩ := hok
          subst hdsp
          rw [tailMatch_heading rest t ha hdw]
          rw [if_pos (by simp [List.isPrefixOf])]
          simp only [Option.map_some']
          have hsp : (' ' :: t).dropWhile isPySpace = t.dropWhile isPySpace := by
            simp [List.dropWhile_cons_of_pos (show isPySpace ' ' = true from rfl)]
          rw [hsp]
          have := pyStripL_dropWhile t
          simp [this]
        · rw [tailMatch_nonspace rest d t ha hd]
          have hdne : d ≠ ' ' := by
            intro h
            subst h
            exact hd rfl
          have hpre2 : List.isPrefixOf ['#', ' '] ('#' :: d :: t) = false := by
            simp only [List.isPrefixOf, Bool.and_eq_false_iff]
            right
            left
            simp [Ne.symm hdne]
          rw [hpre2]
          simp
    · by_cases hnlc : c = '\n'
      · subst hnlc
        rw [List.takeWhile_cons_of_neg (by decide)]
        simp [List.isPrefixOf, hc]
      · rw [List.takeWhile_cons_of_pos (by simpa using hnlc)]
        rw [if_neg hc]
        have hpre : List.isPrefixOf ['#', ' ']
            (c :: rest.takeWhile (fun d => d ≠ '\n')) = false := by
          simp [List.isPrefixOf, Ne.symm hc]
        rw [hpre]
        simp

theorem cellsOk_tail {c : Cell} {rest : List Cell}
    (hok : cellsOk (c :: rest) = true) : cellsOk rest = true := by
  simp only [cellsOk, List.all_cons, Bool.and_eq_true] at hok
  exact hok.2

theorem cellsOk_md {source : String} {atts : List (String × List (String × String))}
    {rest : List Cell} (hok : cellsOk (Cell.markdown source atts :: rest) = true) :
    sourceOk source = true := by
  simp only [cellsOk, List.all_cons, Bool.and_eq_true] at hok
  exact hok.1

/-- `notebook_to_mdx.py`'s title extraction agrees with the line-based
"first level-1 heading in any markdown cell, default Untitled" reading, on
notebooks whose heading lines are regex-benign (`cellsOk`). -/
theorem extract_title_eq_spec (cells : List Cell) (hok : cellsOk cells = true) :
    notebook_to_mdx.extract_title_from_markdown cells = spec_title cells := by
  induction cells with
  | nil => rfl
  | cons c rest ih =>
    cases c with
    | markdown source atts =>
      have hsok := cellsOk_md hok
      have hspec := searchH1Fuel_lineSpec (source.data.length + 1) source.data
        (by omega) hsok
      simp only [notebook_to_mdx.extract_title_from_markdown, spec_title, searchH1]
      cases hs : searchH1Fuel (source.data.length + 1) source.data with
      | none =>
        rw [hs] at hspec
        simp only [Option.map_none'] at hspec
        cases hf : (splitNlChars source.data).find?
            (fun l => List.isPrefixOf ['#', ' '] l) with
        | none => simp [hf, ih (cellsOk_tail hok)]
        | some l =>
          rw [hf] at hspec
          simp at hspec
      | some g =>
        rw [hs] at hspec
        cases hf : (splitNlChars source.data).find?
            (fun l => List.isPrefixOf ['#', ' '] l) with
        | none =>
          rw [hf] at hspec
          simp at hspec
        | some l =>
          rw [hf] at hspec
          simp only [Option.map_some'] at hspec
          injection hspec with hval
          simp only [Option.map_some']
          show pyStrip ⟨g⟩ = pyStrip ⟨l.drop 2⟩
          unfold pyStrip
          rw [show (String.mk g).data = g from rfl,
            show (String.mk (l.drop 2)).data = l.drop 2 from rfl, hval]
    | code source outputs =>
      simp only [notebook_to_mdx.extract_title_from_markdown, spec_title]
      exact ih (cellsOk_tail hok)
    | other source =>
      simp only [notebook_to_mdx.extract_title_from_markdown, spec_title]
      exact ih (cellsOk_tail hok)

/-- `convert_notebook_to_mdx.py`'s title extraction agrees with the anchored
reading: only a markdown cell *beginning* with a heading line counts, and
the fallback is derived from the stem. -/
theorem extract_title_eq_anchored (stem : String) (cells : List Cell)
    (hok : cellsOk cells = true) :
    convert_mdx.extract_title stem cells = spec_title_anchored stem cells := by
  induction cells with
  | nil => rfl
  | cons c rest ih =>
    cases c with
    | markdown source atts =>
      have h1 := matchH1_lineSpec source
        (firstLine_ok_of_sourceOk source (cellsOk_md hok))
      simp only [convert_mdx.extract_title, spec_title_anchored]
      by_cases hp : List.isPrefixOf ['#', ' ']
          (source.data.takeWhile (fun d => d ≠ '\n')) = true
      · rw [if_pos hp] at h1
        rw [if_pos hp]
        cases hm : matchH1 source with
        | none =>
          rw [hm] at h1
          simp at h1
        | some g =>
          rw [hm] at h1
          simp only [Option.map_some'] at h1
          injection h1 with hval
          simp only []
          show pyStrip g = pyStrip ⟨(source.data.takeWhile (fun d => d ≠ '\n')).drop 2⟩
          unfold pyStrip
          rw [show (String.mk ((source.data.takeWhile (fun d => d ≠ '\n')).drop 2)).data
            = (source.data.takeWhile (fun d => d ≠ '\n')).drop 2 from rfl, ← hval]
      · rw [if_neg hp] at h1
        rw [if_neg hp]
        cases hm : matchH1 source with
        | none => simp only [hm]; exact ih (cellsOk_tail hok)
        | some g =>
          rw [hm] at h1
          simp at h1
    | code source outputs =>
      simp only [convert_mdx.extract_title, spec_title_anchored]
      exact ih (cellsOk_tail hok)
    | other source =>
      simp only [convert_mdx.extract_title, spec_title_anchored]
      exact ih (cellsOk_tail hok)

end NbMdx

open NbMdx

/-- C1 counterexample: the code does not lowercase the stem.  For the stem
`"My_Notebook"`, `notebook_to_mdx.py` names the output `My-Notebook.mdx`
(dashes, case preserved) and `convert_notebook_to_mdx.py` names it
`My_Notebook.mdx` (the stem unchanged), while the claim predicts the
lowercased `my-notebook.mdx`. -/
theorem claim1_counterexample :
    notebook_to_mdx.output_name "My_Notebook" = "My-Notebook.mdx" ∧
    convert_mdx.output_name "My_Notebook" = "My_Notebook.mdx" ∧
    spec_output_name "My_Notebook" = "my-notebook.mdx" ∧
    notebook_to_mdx.output_name "My_Notebook" ≠ spec_output_name "My_Notebook" ∧
    convert_mdx.output_name "My_Notebook" ≠ spec_output_name "My_Notebook" := by
  refine ⟨by decide, by decide, by decide, by decide, by decide⟩

/-- C1 amended: `notebook_to_mdx.py` names the output document by replacing
every underscore of the notebook's filename stem with a dash (all other
characters, in particular letter case, preserved) and appending `.mdx`;
`convert_notebook_to_mdx.py` uses the stem verbatim plus `.mdx`.  Neither
script lowercases the stem. -/
theorem claim1_theorem (stem : String) :
    notebook_to_mdx.output_name stem =
      ⟨stem.data.map (fun c => if c = '_' then '-' else c)⟩ ++ ".mdx" ∧
    convert_mdx.output_name stem = stem ++ ".mdx" := by
  constructor
  · show pyReplace stem "_" "-" ++ ".mdx" = _
    unfold pyReplace
    rw [show ("_" : String).data = ['_'] from rfl, show ("-" : String).data = ['-'] from rfl,
      replaceL_singleton_eq_map]
  · rfl

/-- C2 amended: the sanitizer does not exempt fenced code blocks (see the
counterexample), but code cells are never passed through it: for every code
cell with non-blank source, `process_code_cell` emits a fenced `python`
block whose body is the cell's source verbatim, at the head of the
fragment. -/
theorem claim2_theorem (source : String) (outputs : List Output)
    (show_output : Bool) (h : pyTruthy source = true) :
    ∃ rest, convert_mdx.process_code_cell source outputs show_output =
      "```python\n" ++ source ++ "\n```\n" ++ rest := by
  have key : ∀ (b : String) (l : List String), ∃ rest, joinNl (b :: l) ++ "\n" = b ++ rest := by
    intro b l
    cases l with
    | nil => exact ⟨"\n", rfl⟩
    | cons x xs =>
      exact ⟨"\n" ++ joinNl (x :: xs) ++ "\n", by simp [joinNl, String.append_assoc]⟩
  have get : ∀ (l : List String), ∃ rest,
      joinNl (("```python\n" ++ source ++ "\n```\n") :: l) ++ "\n" =
        "```python\n" ++ source ++ "\n```\n" ++ rest := by
    intro l
    obtain ⟨rest, hr⟩ := key ("```python\n" ++ source ++ "\n```\n") l
    exact ⟨rest, by simpa [String.append_assoc] using hr⟩
  unfold convert_mdx.process_code_cell
  cases show_output with
  | false => simpa [h] using get []
  | true => simpa [h] using get (outputs.flatMap convert_mdx.process_output)

/-- Witness for C2: a concrete code cell whose fenced block holds the source
verbatim. -/
theorem claim2_witness :
    ∃ rest, convert_mdx.process_code_cell "x = 1" [] true =
      "```python\nx = 1\n```\n" ++ rest :=
  claim2_theorem "x = 1" [] true (by decide)

/-- C5 confirmed: for every `execute_result` or `display_data` output, the
rendered fragment is determined by the highest-preference mime type present
in the `data` mapping (order `image/png > image/jpeg > image/svg+xml >
text/html > text/plain`) and by that mime type's payload alone; when none of
the five is present, nothing is rendered. -/
theorem claim5_theorem (data : List (String × String)) :
    convert_mdx.process_output (.execute_result data) =
      (match selected_mime data with
        | none => []
        | some m => render_mime m ((data.lookup m).getD "")) ∧
    convert_mdx.process_output (.display_data data) =
      (match selected_mime data with
        | none => []
        | some m => render_mime m ((data.lookup m).getD "")) := by
  have key : convert_mdx.process_data data =
      (match selected_mime data with
        | none => []
        | some m => render_mime m ((data.lookup m).getD "")) := by
    by_cases h1 : (data.lookup "image/png").isSome
    · simp [convert_mdx.process_data, selected_mime, mime_preference,
        render_mime, List.find?, h1]
    · by_cases h2 : (data.lookup "image/jpeg").isSome
      · simp [convert_mdx.process_data, selected_mime, mime_preference,
          render_mime, List.find?, h1, h2]
      · by_cases h3 : (data.lookup "image/svg+xml").isSome
        · simp [convert_mdx.process_data, selected_mime, mime_preference,
            render_mime, List.find?, h1, h2, h3]
        · by_cases h4 : (data.lookup "text/html").isSome
          · simp [convert_mdx.process_data, selected_mime, mime_preference,
              render_mime, List.find?, h1, h2, h3, h4]
          · by_cases h5 : (data.lookup "text/plain").isSome
            · simp [convert_mdx.process_data, selected_mime, mime_preference,
                render_mime, List.find?, h1, h2, h3, h4, h5]
            · simp [convert_mdx.process_data, selected_mime, mime_preference,
                render_mime, List.find?, h1, h2, h3, h4, h5]
  exact ⟨key, key⟩

/-- C10 confirmed: a stream output whose text is empty or whitespace-only
yields no fragment, and an `execute_result`/`display_data` output whose only
recognized representation is a whitespace-only `text/plain` payload yields
no fragment either. -/
theorem claim10_theorem (text t : String) (data : List (String × String))
    (h1 : pyStrip text = "")
    (hpng : data.lookup "image/png" = none)
    (hjpg : data.lookup "image/jpeg" = none)
    (hsvg : data.lookup "image/svg+xml" = none)
    (hhtml : data.lookup "text/html" = none)
    (hplain : data.lookup "text/plain" = some t)
    (h2 : pyStrip t = "") :
    convert_mdx.process_output (.stream text) = [] ∧
    convert_mdx.process_output (.execute_result data) = [] ∧
    convert_mdx.process_output (.display_data data) = [] := by
  have ht := pyTruthy_eq_false h1
  have ht2 := pyTruthy_eq_false h2
  refine ⟨?_, ?_, ?_⟩ <;>
    simp [convert_mdx.process_output, convert_mdx.process_data, ht, ht2,
      hpng, hjpg, hsvg, hhtml, hplain]

/-- Witness for C10: whitespace-only stream and `text/plain` outputs render
to nothing. -/
theorem claim10_witness :
    convert_mdx.process_output (.stream " ") = [] ∧
    convert_mdx.process_output (.execute_result [("text/plain", "\n")]) = [] ∧
    convert_mdx.process_output (.display_data [("text/plain", "\n")]) = [] :=
  claim10_theorem " " "\n" [("text/plain", "\n")] (by decide) (by decide)
    (by decide) (by decide) (by decide) (by decide) (by decide)

/-- C3 counterexample: `convert_notebook_to_mdx.py` only honours a level-1
heading at the very start of a markdown cell (its `re.match` is anchored),
and its fallback is derived from the filename stem, not `"Untitled"`.  On a
notebook whose only markdown cell is `"intro\n# Real Title"` (heading on
the second line) with stem `My_Notebook`, it titles the page `My Notebook`
while the claim demands `Real Title`; on a notebook with no heading at all
it yields `My Notebook`, not `Untitled`. -/
theorem claim3_counterexample :
    convert_mdx.extract_title "My_Notebook" [Cell.markdown "intro\n# Real Title" []] =
      "My Notebook" ∧
    notebook_to_mdx.extract_title_from_markdown [Cell.markdown "intro\n# Real Title" []] =
      "Real Title" ∧
    spec_title [Cell.markdown "intro\n# Real Title" []] = "Real Title" ∧
    convert_mdx.extract_title "My_Notebook" [Cell.markdown "intro\n# Real Title" []] ≠
      spec_title [Cell.markdown "intro\n# Real Title" []] ∧
    convert_mdx.extract_title "My_Notebook" [] = "My Notebook" ∧
    spec_title ([] : List Cell) = "Untitled" := by
  refine ⟨by decide, by decide, by decide, by decide, by decide, by decide⟩

/-- C3 amended: on notebooks whose heading lines are regex-benign
(`cellsOk`), `notebook_to_mdx.py`'s title is the text of the first level-1
heading found in any markdown cell with default `"Untitled"` (as claimed),
while `convert_notebook_to_mdx.py`'s title is the heading of the first
markdown cell that *begins* with a level-1 heading, with the filename stem
(underscores and dashes turned into spaces) as default instead of
`"Untitled"`. -/
theorem claim3_theorem (stem : String) (cells : List Cell)
    (hok : cellsOk cells = true) :
    notebook_to_mdx.extract_title_from_markdown cells = spec_title cells ∧
    convert_mdx.extract_title stem cells = spec_title_anchored stem cells :=
  ⟨extract_title_eq_spec cells hok, extract_title_eq_anchored stem cells hok⟩

/-- Witness for C3 at a concrete notebook. -/
theorem claim3_witness :
    cellsOk [Cell.markdown "# My Notebook\nIntro text." []] = true ∧
    notebook_to_mdx.extract_title_from_markdown
        [Cell.markdown "# My Notebook\nIntro text." []] =
      spec_title [Cell.markdown "# My Notebook\nIntro text." []] ∧
    convert_mdx.extract_title "Getting_Started"
        [Cell.markdown "# My Notebook\nIntro text." []] =
      spec_title_anchored "Getting_Started"
        [Cell.markdown "# My Notebook\nIntro text." []] :=
  ⟨by decide,
    ( claim3_theorem "Getting_Started"
      [Cell.markdown "# My Notebook\nIntro text." []] (by decide)).1,
    ( claim3_theorem "Getting_Started"
      [Cell.markdown "# My Notebook\nIntro text." []] (by decide)).2⟩

/-- C4 counterexample: `convert_notebook_to_mdx.py` returns the first
eligible line even when it appears *before* the first level-1 heading, and
`notebook_to_mdx.py` strips only link markup (bold is left intact), so both
implementations contradict the claim. -/
theorem claim4_counterexample :
    convert_mdx.extract_description [Cell.markdown "Intro line\n# T\nBody line" []] =
      "Intro line" ∧
    spec_description [Cell.markdown "Intro line\n# T\nBody line" []] = "Body line" ∧
    convert_mdx.extract_description [Cell.markdown "Intro line\n# T\nBody line" []] ≠
      spec_description [Cell.markdown "Intro line\n# T\nBody line" []] ∧
    notebook_to_mdx.extract_description_from_markdown
        [Cell.markdown "# T\n**Bold** text" []] = "**Bold** text" ∧
    spec_description [Cell.markdown "# T\n**Bold** text" []] = "Bold text" ∧
    notebook_to_mdx.extract_description_from_markdown
        [Cell.markdown "# T\n**Bold** text" []] ≠
      spec_description [Cell.markdown "# T\n**Bold** text" []] := by
  refine ⟨by decide, by decide, by decide, by decide, by decide, by decide⟩

/-- C4 amended: for a markdown cell of the common two-line shape — a level-1
heading followed by one description line that is non-empty, starts with none
of `#`, `<`, `![`, carries no link/bold/italic/code markup and is at most
160 characters — both scripts and the spec-side reading agree: the
description is that stripped line.  (In general they differ: the
counterexample shows `convert_notebook_to_mdx.py` accepts lines before the
heading, and `notebook_to_mdx.py` strips only link markup and does not skip
raw-HTML lines.) -/
theorem claim4_theorem (source : String)
    (atts : List (String × List (String × String)))
    (l1 l2 : List Char)
    (hsplit : splitNlChars (pyStrip source).data = [l1, l2])
    (hsplit2 : splitNlChars source.data = [l1, l2])
    (hh1 : List.isPrefixOf ['#', ' '] (pyStripL l1) = true)
    (hne : (pyStripL l2).isEmpty = false)
    (hhd : (pyStripL l2).head? ≠ some '#')
    (hlt : (pyStripL l2).head? ≠ some '<')
    (hbang : List.isPrefixOf ['!', '['] (pyStripL l2) = false)
    (hm1 : '[' ∉ pyStripL l2) (hm2 : '*' ∉ pyStripL l2) (hm3 : '`' ∉ pyStripL l2)
    (hlen : (pyStripL l2).length ≤ 160) :
    convert_mdx.extract_description [Cell.markdown source atts] = ⟨pyStripL l2⟩ ∧
    notebook_to_mdx.extract_description_from_markdown [Cell.markdown source atts] =
      ⟨pyStripL l2⟩ ∧
    spec_description [Cell.markdown source atts] = ⟨pyStripL l2⟩ := by
  have hclean := clean_desc_id (pyStripL l2) hm1 hm2 hm3
  have htr := truncate160_id (pyStripL l2) hlen
  refine ⟨?_, ?_, ?_⟩
  · show convert_mdx.extract_description_aux false [Cell.markdown source atts] = _
    simp only [convert_mdx.extract_description_aux, hsplit]
    simp only [convert_mdx.desc_lines, hh1, Bool.not_false, Bool.and_true, hne,
      Bool.not_true, Bool.and_false, Bool.false_eq_true, if_false, if_true,
      Bool.false_or, hclean]
    rw [if_neg (by simp [hne, hhd, hlt]), if_neg (by simp [hlt, hne]), htr]
  · show notebook_to_mdx.extract_description_aux false [Cell.markdown source atts] = _
    simp only [notebook_to_mdx.extract_description_aux, hsplit2]
    simp only [notebook_to_mdx.desc_lines, hh1, Bool.not_false, Bool.and_true, hne,
      Bool.not_true, Bool.and_false, Bool.false_eq_true, if_false, if_true]
    rw [if_neg (by simp [hhd]), if_neg (by simp [hbang])]
    rw [linkSub, linkSubFuel_id _ _ hm1, htr]
  · show spec_description_aux false [Cell.markdown source atts] = _
    simp only [spec_description_aux, hsplit2]
    simp only [spec_desc_lines, hh1, Bool.not_false, if_true, Bool.not_true,
      Bool.false_eq_true, if_false, hclean]
    rw [if_neg (by simp [hne, hhd, hlt]), htr]

/-- Witness for C4 at the spec's own example notebook. -/
theorem claim4_witness :
    convert_mdx.extract_description
        [Cell.markdown "# My Notebook\nThis computes stuff." []] =
      "This computes stuff." ∧
    notebook_to_mdx.extract_description_from_markdown
        [Cell.markdown "# My Notebook\nThis computes stuff." []] =
      "This computes stuff." ∧
    spec_description [Cell.markdown "# My Notebook\nThis computes stuff." []] =
      "This computes stuff." :=
  claim4_theorem "# My Notebook\nThis computes stuff." []
    "# My Notebook".data "This computes stuff.".data
    (by decide) (by decide) (by decide) (by decide) (by decide) (by decide)
    (by decide) (by decide) (by decide) (by decide) (by decide)

/-- C2 counterexample: `sanitize_markdown_for_mdx` escapes curly braces
inside a triple-backtick fenced code block too — on the input
"```\n\x7bx\x7d\n```" the fenced body `\x7bx\x7d` becomes `\\\x7bx\\\x7d`,
so sanitization does not leave fenced-block bodies byte-for-byte
unchanged. -/
theorem claim2_counterexample :
    notebook_to_mdx.sanitize_markdown_for_mdx "```\n\x7bx\x7d\n```" =
      "```\n\\\x7bx\\\x7d\n```" ∧
    notebook_to_mdx.sanitize_markdown_for_mdx "```\n\x7bx\x7d\n```" ≠
      "```\n\x7bx\x7d\n```" := by
  refine ⟨by decide, by decide⟩

/-- C6 counterexample: `convert_notebook_to_mdx.py` does not skip an empty
notebook: it produces a frontmatter-only document, and its batch loop
records the notebook as converted (only `Raster_Inference`-prefixed names
are skipped). -/
theorem claim6_counterexample :
    convert_mdx.convert_notebook_to_mdx "My_Notebook" [] true none =
      "---\ntitle: \"My Notebook\"\n---\n\n" ∧
    convert_mdx.convert_all [("My_Notebook.ipynb", "My_Notebook", [])] =
      (["My_Notebook.mdx"], []) := by
  refine ⟨by decide, by decide⟩

/-- C6 amended: `notebook_to_mdx.py` skips a notebook with no cells (its
converter returns `None` after a warning) and the batch conversion of the
remaining notebooks continues unaffected; `convert_notebook_to_mdx.py`
performs no such check (see the counterexample). -/
theorem claim6_theorem (output_dir : String) (fs : String → Bool)
    (path : String) (li ks : Option String)
    (pre post : List (String × List Cell × Option String × Option String)) :
    notebook_to_mdx.convert_notebook_to_mdx path output_dir [] li ks fs = none ∧
    notebook_to_mdx.batch output_dir fs (pre ++ (path, [], li, ks) :: post) =
      notebook_to_mdx.batch output_dir fs pre ++
        notebook_to_mdx.batch output_dir fs post := by
  constructor
  · rfl
  · induction pre with
    | nil =>
      simp only [List.nil_append]
      simp [notebook_to_mdx.batch, notebook_to_mdx.convert_notebook_to_mdx]
    | cons hd tl ih =>
      obtain ⟨p, cs, l, k⟩ := hd
      simp only [List.cons_append, notebook_to_mdx.batch]
      cases notebook_to_mdx.convert_notebook_to_mdx p output_dir cs l k fs with
      | none => simpa using ih
      | some v =>
        obtain ⟨o, c, w⟩ := v
        simpa using ih

/-- C7 counterexample: a reference whose path contains the branding marker
`header-logo` is dropped (replaced by the empty string) even when its
attachment name is absent from the mapping, so such an unresolvable
reference is *not* left unmodified. -/
theorem claim7_counterexample :
    notebook_to_mdx.replace_image "a" "attachment:header-logo.png" []
        "nb/d.ipynb" "out/images" "slug" (fun _ => false) = ("", []) ∧
    ("" : String) ≠ "![a](attachment:header-logo.png)" := by
  refine ⟨by decide, by decide⟩

/-- C7 amended: for every image reference whose path does not contain the
branding marker `header-logo`, an attachment name absent from the cell's
attachment mapping, or a relative path whose resolved file does not exist,
leaves the reference text unmodified and performs no write (conversion
continues). -/
theorem claim7_theorem (alt path : String)
    (atts : List (String × List (String × String)))
    (nbpath images_dir slug : String) (fs : String → Bool)
    (hnh : pyContains path "header-logo" = false) :
    (pyStartsWith path "attachment:" = true →
      atts.lookup (pyReplace path "attachment:" "") = none →
      notebook_to_mdx.replace_image alt path atts nbpath images_dir slug fs =
        ("![" ++ alt ++ "](" ++ path ++ ")", [])) ∧
    (pyStartsWith path "attachment:" = false →
      fs (notebook_to_mdx.resolved_local_path path nbpath) = false →
      notebook_to_mdx.replace_image alt path atts nbpath images_dir slug fs =
        ("![" ++ alt ++ "](" ++ path ++ ")", [])) := by
  constructor
  · intro hst hlk
    unfold notebook_to_mdx.replace_image
    simp [hnh, hst, hlk]
  · intro hst hfs
    unfold notebook_to_mdx.replace_image
    simp [hnh, hst, hfs]

/-- Witness for C7: a missing attachment and a missing local file, both
left unmodified with no write. -/
theorem claim7_witness :
    notebook_to_mdx.replace_image "a" "attachment:missing.png" [] "nb/d.ipynb"
        "out/images" "slug" (fun _ => false) =
      ("![" ++ "a" ++ "](" ++ "attachment:missing.png" ++ ")", []) ∧
    notebook_to_mdx.replace_image "a" "img/m.png" [] "nb/d.ipynb"
        "out/images" "slug" (fun _ => false) =
      ("![" ++ "a" ++ "](" ++ "img/m.png" ++ ")", []) :=
  ⟨( claim7_theorem "a" "attachment:missing.png" [] "nb/d.ipynb" "out/images"
      "slug" (fun _ => false) (by decide)).1 (by decide) (by decide),
   ( claim7_theorem "a" "img/m.png" [] "nb/d.ipynb" "out/images" "slug"
      (fun _ => false) (by decide)).2 (by decide) rfl⟩

/-- C8 counterexample: with *different* original filenames, relocated image
names of two notebooks with distinct slugs can collide: slug `a` with image
`b-c.png` and slug `a-b` with image `c.png` both produce `a-b-c.png`. -/
theorem claim8_counterexample :
    notebook_to_mdx.local_image_filename "a" "b-c.png" = "a-b-c.png" ∧
    notebook_to_mdx.local_image_filename "a-b" "c.png" = "a-b-c.png" ∧
    ("a" : String) ≠ "a-b" := by
  refine ⟨by decide, by decide, by decide⟩

/-- C8 amended: two notebooks with distinct document slugs and images with
the *same* original filename never produce colliding relocated filenames
(the claimed general collision freedom fails for different original
filenames, see the counterexample). -/
theorem claim8_theorem (slug1 slug2 name : String) (h : slug1 ≠ slug2) :
    notebook_to_mdx.local_image_filename slug1 name ≠
      notebook_to_mdx.local_image_filename slug2 name := by
  intro he
  apply h
  unfold notebook_to_mdx.local_image_filename at he
  have hd := congrArg String.data he
  simp only [String.data_append] at hd
  have h1 := List.append_cancel_right hd
  exact String.ext (List.append_cancel_right h1)

/-- Witness for C8 at concrete slugs. -/
theorem claim8_witness :
    notebook_to_mdx.local_image_filename "a" "img.png" ≠
      notebook_to_mdx.local_image_filename "b" "img.png" :=
  claim8_theorem "a" "b" "img.png" (by decide)

/-- C9 counterexample: the emitted `title: "..."` line embeds the derived
title verbatim — a double quote inside the title is *not* escaped (the
escaped line would read differently), while the description's quotes are. -/
theorem claim9_counterexample :
    convert_mdx.frontmatter_lines "Stem" [Cell.markdown "# Say \"Hi\"\nDesc" []] none =
      ["---", "title: \"Say \"Hi\"\"", "description: \"Desc\"", "---", ""] ∧
    ("title: \"Say \"Hi\"\"" : String) ≠
      "title: \"" ++ pyReplace "Say \"Hi\"" "\"" "\\\"" ++ "\"" := by
  refine ⟨by decide, by decide⟩

/-- C9 amended: in `generate_frontmatter`'s metadata lines, the description
has its double quotes escaped before being embedded in its
`description: "..."` line, but the title is embedded raw (no escaping);
`notebook_to_mdx.py` likewise embeds its title raw. -/
theorem claim9_theorem (stem : String) (cells : List Cell)
    (category : Option String)
    (hne : convert_mdx.extract_description cells ≠ "") :
    ("title: \"" ++ convert_mdx.extract_title stem cells ++ "\"") ∈
      convert_mdx.frontmatter_lines stem cells category ∧
    ("description: \"" ++
        pyReplace (convert_mdx.extract_description cells) "\"" "\\\"" ++ "\"") ∈
      convert_mdx.frontmatter_lines stem cells category := by
  constructor <;> simp [convert_mdx.frontmatter_lines, hne]

/-- Witness for C9 at a concrete notebook. -/
theorem claim9_witness :
    ("title: \"" ++ convert_mdx.extract_title "S" [Cell.markdown "# T\nDesc" []] ++ "\"") ∈
      convert_mdx.frontmatter_lines "S" [Cell.markdown "# T\nDesc" []] none ∧
    ("description: \"" ++
        pyReplace (convert_mdx.extract_description [Cell.markdown "# T\nDesc" []])
          "\"" "\\\"" ++ "\"") ∈
      convert_mdx.frontmatter_lines "S" [Cell.markdown "# T\nDesc" []] none :=
  ⟨( claim9_theorem "S" [Cell.markdown "# T\nDesc" []] none (by decide)).1,
   ( claim9_theorem "S" [Cell.markdown "# T\nDesc" []] none (by decide)).2⟩
